import Mathlib

/-!
# Rainbond: helm HTTP handler, image build item and helm application phases

A shallow embedding of

* `api/handler/helm.go` (`GetChartInformation`, `CommandHelm`),
* `pkg/builder/exector/build_from_image_run.go` (`ImageBuildItem`),
* the phase handlers exercised by `worker/controllers/helmapp/controlloop_test.go`.

Calls that leave the process (HTTP, YAML and JSON decoding, the helm binary, docker,
the database, the API client) are fields of an environment record: every outcome
such a call can have is a value of that field.
-/

namespace Rainbond

/-! ## Go error values -/

/-- A non-nil Go `error`. `plain` is what `fmt.Errorf` and `errors.New` build, `wrap`
is what `errors.Wrap(cause, msg)` of `github.com/pkg/errors` builds. A possibly nil
`error` is an `Option GoError`. -/
inductive GoError where
  | plain (msg : String)
  | wrap (cause : GoError) (msg : String)
  deriving DecidableEq, Repr

namespace GoError

/-- The `Error()` method: a wrapped error prints as `msg + ": " + cause.Error()`. -/
def Error : GoError → String
  | plain msg => msg
  | wrap cause msg => msg ++ ": " ++ Error cause

end GoError

/-! ## `api/handler/helm.go` -/

namespace handler

/-- The fields of helm's `chart.Metadata` that the handler reads. -/
structure Metadata where
  Version : String
  Description : String
  Icon : String
  Keywords : List String
  deriving DecidableEq, Repr

/-- The type `hrepo.ChartVersion`: it embeds a `*chart.Metadata`, which is nil (`none`)
when the decoded entry has no metadata field, next to fields of its own. -/
structure ChartVersion where
  Metadata : Option Metadata
  URLs : List String
  Digest : String
  deriving DecidableEq, Repr

/-- The type `hrepo.ChartVersions`, a `[]*ChartVersion`: an element is nil (`none`) when
the decoded document has `null` in its place. -/
abbrev ChartVersions := List (Option ChartVersion)

/-- The metadata reached through a `*ChartVersion`, as a promoted field such as
`v.Version` reaches it: nothing through a nil element or a nil embedded pointer. -/
def metadataOf (v : Option ChartVersion) : Option Metadata :=
  match v with
  | none => none
  | some version => version.Metadata

/-- The type `hrepo.IndexFile`: `Entries` is a Go `map[string]ChartVersions`, kept as an
association list read by its first match. -/
structure IndexFile where
  Entries : List (String × ChartVersions)
  deriving DecidableEq, Repr

/-- The builtin `len` of a Go map: the number of distinct keys. -/
def mapLen {V : Type} (m : List (String × V)) : Nat :=
  (m.map Prod.fst).dedup.length

/-- The two-valued map index `v, ok := m[k]`. -/
def mapGet {V : Type} (m : List (String × V)) (k : String) : Option V :=
  m.lookup k

/-- The type `api_model.ChartInformation`. -/
structure ChartInformation where
  RepoURL : String
  ChartName : String
  deriving DecidableEq, Repr

/-- The type `api_model.HelmChartInformation`. -/
structure HelmChartInformation where
  Version : String
  Keywords : List String
  Pic : String
  Abstract : String
  deriving DecidableEq, Repr

/-- The type `util.APIHandleError`. -/
structure APIHandleError where
  Code : Int
  Err : GoError
  deriving DecidableEq, Repr

/-- An `*http.Request` as built by `http.NewRequest`. -/
structure Request where
  Method : String
  URL : String
  deriving DecidableEq, Repr

/-- An `*http.Response`; only its body is read. -/
structure Response where
  Body : String
  deriving DecidableEq, Repr

/-- The calls `GetChartInformation` makes outside the handler. -/
structure HTTPEnv where
  /-- The call `http.NewRequest(method, url, nil)`. -/
  NewRequest : String → String → Except GoError Request
  /-- The call `client.Do(req)`. -/
  Do : Request → Except GoError Response
  /-- The call `ioutil.ReadAll(resp.Body)`. -/
  ReadAll : Response → Except GoError String
  /-- The call `yaml.YAMLToJSON(body)`. -/
  YAMLToJSON : String → Except GoError String
  /-- The call `json.Unmarshal(jbody, &indexFile)`. -/
  Unmarshal : String → Except GoError IndexFile

/-- The item the loop body of `GetChartInformation` builds from the metadata of a version. -/
def toHelmChartInformation (m : Metadata) : HelmChartInformation :=
  { Version := m.Version, Keywords := m.Keywords, Pic := m.Icon, Abstract := m.Description }

/-- The loop of `GetChartInformation` over the versions of a chart, started with the items
appended so far: each version appends one item; reading `v.Version` through a nil element
or a nil embedded pointer is a run-time panic, `none`. -/
def appendVersions (chartInformations : List HelmChartInformation) :
    ChartVersions → Option (List HelmChartInformation)
  | [] => some chartInformations
  | v :: rest =>
    match metadataOf v with
    | none => none
    | some m => appendVersions (chartInformations ++ [toHelmChartInformation m]) rest

/-- The method `HelmAction.GetChartInformation`: `none` when the call panics, otherwise
the pair of the returned pointer and the returned `*util.APIHandleError`, each `none`
when nil. -/
def GetChartInformation (env : HTTPEnv) (chart : ChartInformation) :
    Option (Option (List HelmChartInformation) × Option APIHandleError) :=
  match env.NewRequest "GET" (chart.RepoURL ++ "/index.yaml") with
  | .error err => some (none, some ⟨400, .wrap err "GetChartInformation NewRequest"⟩)
  | .ok req =>
    match env.Do req with
    | .error err => some (none, some ⟨400, .wrap err "GetChartInformation client.Do"⟩)
    | .ok resp =>
      match env.ReadAll resp with
      | .error err => some (none, some ⟨400, .wrap err "GetChartInformation ioutil.ReadAll"⟩)
      | .ok body =>
        match env.YAMLToJSON body with
        | .error err =>
          some (none, some ⟨400, .wrap err "GetChartInformation yaml.YAMLToJSON"⟩)
        | .ok jbody =>
          match env.Unmarshal jbody with
          | .error err =>
            some (none, some ⟨400, .wrap err "GetChartInformation json.Unmarshal"⟩)
          | .ok indexFile =>
            if mapLen indexFile.Entries = 0 then
              some (none, some ⟨400, .plain "entries not found"⟩)
            else
              match mapGet indexFile.Entries chart.ChartName with
              | some versions =>
                match appendVersions [] versions with
                | none => none
                | some chartInformations => some (some chartInformations, none)
              | none => some (some [], none)

/-- The call `strings.Split(s, sep)` for a one-character separator, on the characters of
`s`: the pieces between consecutive separators, empty pieces included. -/
def splitChars (sep : Char) : List Char → List (List Char)
  | [] => [[]]
  | c :: cs =>
    if c = sep then [] :: splitChars sep cs
    else
      match splitChars sep cs with
      | [] => [[c]]
      | w :: ws => (c :: w) :: ws

/-- The call `strings.Split(s, sep)` for a one-character separator. -/
def Split (s : String) (sep : Char) : List String :=
  (splitChars sep s.data).map String.mk

/-- The type `api_model.HelmCommandRet`. -/
structure HelmCommandRet where
  Yaml : String
  Status : Bool
  deriving DecidableEq, Repr

/-- The command built by `exec.Command(name, arg...)`. -/
structure Cmd where
  Name : String
  Arg : List String
  deriving DecidableEq, Repr

/-- What `cmd.Run()` leaves behind: its error and the two buffers. -/
structure Finished where
  err : Option GoError
  stdout : String
  stderr : String
  deriving DecidableEq, Repr

/-- What `CommandHelm` returns, with the command it started. -/
structure CommandHelmResult where
  ret : Option HelmCommandRet
  apiErr : Option APIHandleError
  started : Cmd
  deriving DecidableEq, Repr

/-- The method `HelmAction.CommandHelm`; `run` is `cmd.Run()` with both buffers attached. -/
def CommandHelm (run : Cmd → Finished) (command : String) : CommandHelmResult :=
  let commands := Split command ' '
  let cmd : Cmd := { Name := "helm", Arg := commands }
  let done := run cmd
  match done.err with
  | some _ => { ret := some { Yaml := done.stderr, Status := false }, apiErr := none, started := cmd }
  | none => { ret := some { Yaml := done.stdout, Status := true }, apiErr := none, started := cmd }

/-! ### Sample inputs -/

/-- The metadata of a chart version as found in an index. -/
def sampleMetadata : Metadata :=
  { Version := "8.2.0", Description := "web interface for MySQL",
    Icon := "phpmyadmin.svg", Keywords := ["mysql", "php"] }

/-- The metadata of an older version of the same chart. -/
def olderMetadata : Metadata :=
  { Version := "8.1.0", Description := "web interface",
    Icon := "phpmyadmin.png", Keywords := ["mysql"] }

/-- A chart version as found in an index. -/
def sampleVersion : ChartVersion :=
  { Metadata := some sampleMetadata, URLs := ["phpmyadmin-8.2.0.tgz"], Digest := "" }

/-- An older version of the same chart. -/
def olderVersion : ChartVersion :=
  { Metadata := some olderMetadata, URLs := ["phpmyadmin-8.1.0.tgz"], Digest := "" }

/-- An index with one chart of two versions. -/
def sampleIndex : IndexFile :=
  { Entries := [("phpmyadmin", [some sampleVersion, some olderVersion])] }

/-- The index decoded from a document whose only version entry is `- urls: [a.tgz]`: no
metadata field is present, so the embedded pointer stays nil. -/
def bareIndex : IndexFile :=
  { Entries := [("phpmyadmin", [some { Metadata := none, URLs := ["a.tgz"], Digest := "" }])] }

/-- The index decoded from a document whose second version entry is `null`. -/
def nullIndex : IndexFile :=
  { Entries := [("phpmyadmin", [some sampleVersion, none])] }

/-- An index without entries. -/
def emptyIndex : IndexFile := { Entries := [] }

/-- A repository that answers every request and decodes to the given index. -/
def servingEnv (index : IndexFile) : HTTPEnv :=
  { NewRequest := fun method url => .ok { Method := method, URL := url }
    Do := fun _ => .ok { Body := "entries" }
    ReadAll := fun resp => .ok resp.Body
    YAMLToJSON := fun body => .ok body
    Unmarshal := fun _ => .ok index }

/-- A repository that cannot be reached. -/
def unreachableEnv : HTTPEnv :=
  { servingEnv sampleIndex with Do := fun _ => .error (.plain "dial tcp: connection refused") }

/-- A repository whose document is not YAML. -/
def malformedEnv : HTTPEnv :=
  { servingEnv sampleIndex with YAMLToJSON := fun _ => .error (.plain "yaml: line 1") }

/-- A query for the chart of the sample index. -/
def sampleQuery : ChartInformation :=
  { RepoURL := "https://charts.bitnami.com/bitnami", ChartName := "phpmyadmin" }

/-- A query for a chart the sample index does not have. -/
def absentQuery : ChartInformation :=
  { RepoURL := "https://charts.bitnami.com/bitnami", ChartName := "wordpress" }

/-- A helm binary that prints the arguments it fails on. -/
def failingHelm (_cmd : Cmd) : Finished :=
  { err := some (.plain "exit status 1"), stdout := "", stderr := "unknown command" }

/-- A helm binary that succeeds. -/
def workingHelm (_cmd : Cmd) : Finished :=
  { err := none, stdout := "NAME", stderr := "" }

/-- The wrap messages of the transport steps. -/
def transportMessages : List String :=
  ["GetChartInformation NewRequest", "GetChartInformation client.Do",
   "GetChartInformation ioutil.ReadAll"]

/-- The wrap messages of the decoding steps. -/
def decodeMessages : List String :=
  ["GetChartInformation yaml.YAMLToJSON", "GetChartInformation json.Unmarshal"]

end handler

/-! ## `pkg/builder/exector/build_from_image_run.go` -/

namespace exector

/-- The `interface` value that `Config.Get` of `parseConfig` returns for a path: a JSON
value, or nil when the path is not in the configuration. -/
inductive ConfigValue where
  | null
  | str (s : String)
  | num (n : Int)
  | bool (b : Bool)
  | object
  deriving DecidableEq, Repr

/-- The type assertion `v.(string)`: `none` is the run-time panic of a failed assertion. -/
def ConfigValue.assertString : ConfigValue → Option String
  | .str s => some s
  | _ => none

/-- The fields read of the value that `sources.ImageNameHandle` returns. -/
structure ImageModel where
  Name : String
  Tag : String
  deriving DecidableEq, Repr

/-- The field read of the tenant row returned by `TenantDao`. -/
structure Tenants where
  UUID : String
  deriving DecidableEq, Repr

/-- The fields used of the service row returned by `TenantServiceDao`. -/
structure TenantServices where
  ServiceID : String
  ImageName : String
  deriving DecidableEq, Repr

/-- The fields used of the version row returned by `VersionInfoDao`. -/
structure VersionInfo where
  EventID : String
  DeliveredType : String
  DeliveredPath : String
  FinalStatus : String
  deriving DecidableEq, Repr

/-- The type `model.RollingUpgradeTaskBody`. -/
structure RollingUpgradeTaskBody where
  TenantID : String
  ServiceID : String
  NewDeployVersion : String
  EventID : String
  deriving DecidableEq, Repr

/-- The type `ImageBuildItem`. `Config` is the `Get` method of the item's configuration;
the logger and the docker client are handles and carry no data of their own. -/
structure ImageBuildItem where
  Namespace : String
  TenantName : String
  ServiceAlias : String
  Image : String
  DestImage : String
  EventID : String
  Config : String → ConfigValue
  TenantID : String
  ServiceID : String
  DeployVersion : String

/-- The calls `ImageBuildItem` makes outside the item. -/
structure BuildEnv where
  /-- The error of `sources.ImagePull(client, image, ...)`. -/
  ImagePull : String → Option GoError
  /-- The error of `sources.ImageTag(client, source, target, ...)`. -/
  ImageTag : String → String → Option GoError
  /-- The error of `sources.ImagePush(client, image, ...)`. -/
  ImagePush : String → Option GoError
  /-- The function `sources.ImageNameHandle`. -/
  ImageNameHandle : String → ImageModel
  /-- The call `TenantDao().GetTenantIDByName(name)`. -/
  GetTenantIDByName : String → Except GoError Tenants
  /-- The call `TenantServiceDao().GetServiceByTenantIDAndServiceAlias(tenantID, alias)`. -/
  GetServiceByTenantIDAndServiceAlias : String → String → Except GoError TenantServices
  /-- The call `TenantServiceDao().UpdateModel(service)`. -/
  UpdateService : TenantServices → Option GoError
  /-- The call `VersionInfoDao().GetVersionByEventID(eventID)`. -/
  GetVersionByEventID : String → Except GoError VersionInfo
  /-- The call `VersionInfoDao().UpdateModel(version)`. -/
  UpdateVersion : VersionInfo → Option GoError
  /-- The call `apiHandler.UpgradeService(tenantName, serviceAlias, body)`. -/
  UpgradeService : String → String → RollingUpgradeTaskBody → Option GoError

/-- One call made outside the item, with its arguments. -/
inductive Call where
  | pull (image : String)
  | tag (source target : String)
  | push (image : String)
  | getTenant (name : String)
  | getService (tenantID serviceAlias : String)
  | updateService (service : TenantServices)
  | getVersion (eventID : String)
  | updateVersion (version : VersionInfo)
  | upgrade (tenantName serviceAlias : String) (body : RollingUpgradeTaskBody)
  deriving DecidableEq, Repr

/-- The step of `Run` a call belongs to: pull, retag, push, store the image URL, store
the version info, upgrade the service. -/
def Call.step : Call → Nat
  | .pull _ => 0
  | .tag _ _ => 1
  | .push _ => 2
  | .getTenant _ => 3
  | .getService _ _ => 3
  | .updateService _ => 3
  | .getVersion _ => 4
  | .updateVersion _ => 4
  | .upgrade _ _ _ => 5

/-- The image URL a call hands to docker or writes to the database, if it has one. -/
def Call.written : Call → Option String
  | .tag _ target => some target
  | .push image => some image
  | .updateService service => some service.ImageName
  | .updateVersion version => some version.DeliveredPath
  | _ => none

/-- The method `ImageBuildItem.ImageNameHandler`; `none` when a type assertion panics. -/
def ImageNameHandler (env : BuildEnv) (i : ImageBuildItem) (source : String) : Option String :=
  match (i.Config "publish > image > curr_registry").assertString with
  | none => none
  | some currRegistry =>
    match (i.Config "publish > image > all_registry").assertString with
    | none => none
    | some _allRegistry =>
      let imageModel := env.ImageNameHandle source
      some (currRegistry ++ "/" ++ imageModel.Name ++ ":" ++ imageModel.Tag ++ "_" ++ i.ServiceAlias)

/-- What a method of the item leaves behind: the returned error, the item, the calls made. -/
structure Effect where
  err : Option GoError
  item : ImageBuildItem
  calls : List Call

/-- The method `ImageBuildItem.StorageLocalImageURL`. -/
def StorageLocalImageURL (env : BuildEnv) (i : ImageBuildItem) (imageURL : String) : Effect :=
  match env.GetTenantIDByName i.TenantName with
  | .error err => ⟨some err, i, [.getTenant i.TenantName]⟩
  | .ok tenant =>
    match env.GetServiceByTenantIDAndServiceAlias tenant.UUID i.ServiceAlias with
    | .error err =>
      ⟨some err, i, [.getTenant i.TenantName, .getService tenant.UUID i.ServiceAlias]⟩
    | .ok service0 =>
      let service := { service0 with ImageName := imageURL }
      let calls := [Call.getTenant i.TenantName, .getService tenant.UUID i.ServiceAlias,
        .updateService service]
      match env.UpdateService service with
      | some err => ⟨some err, i, calls⟩
      | none => ⟨none, { i with TenantID := tenant.UUID, ServiceID := service.ServiceID }, calls⟩

/-- The method `ImageBuildItem.StorageVersionInfo`. -/
def StorageVersionInfo (env : BuildEnv) (i : ImageBuildItem) (imageURL : String) : Effect :=
  match env.GetVersionByEventID i.EventID with
  | .error err => ⟨some err, i, [.getVersion i.EventID]⟩
  | .ok version0 =>
    let version := { version0 with DeliveredType := "image", DeliveredPath := imageURL }
    ⟨env.UpdateVersion version, i, [.getVersion i.EventID, .updateVersion version]⟩

/-- The method `ImageBuildItem.CreateUpgradeTaskBody`. -/
def CreateUpgradeTaskBody (i : ImageBuildItem) : RollingUpgradeTaskBody :=
  { TenantID := i.TenantID, ServiceID := i.ServiceID, NewDeployVersion := i.DeployVersion,
    EventID := i.EventID }

/-- How a call of `Run` ends: it panics, or it returns its error. -/
inductive Outcome where
  | panicked
  | returned (err : Option GoError)
  deriving DecidableEq, Repr

/-- What `Run` leaves behind: how it ended, the item, the calls made in order. -/
structure RunResult where
  outcome : Outcome
  item : ImageBuildItem
  calls : List Call

/-- The method `ImageBuildItem.Run`; the timeout argument is not read by the body. -/
def Run (env : BuildEnv) (i : ImageBuildItem) (_timeout : Int) : RunResult :=
  match env.ImagePull i.Image with
  | some err => ⟨.returned (some err), i, [.pull i.Image]⟩
  | none =>
    match ImageNameHandler env i i.Image with
    | none => ⟨.panicked, i, [.pull i.Image]⟩
    | some localImageURL =>
      match env.ImageTag i.Image localImageURL with
      | some err => ⟨.returned (some err), i, [.pull i.Image, .tag i.Image localImageURL]⟩
      | none =>
        match env.ImagePush localImageURL with
        | some err =>
          ⟨.returned (some err), i,
            [.pull i.Image, .tag i.Image localImageURL, .push localImageURL]⟩
        | none =>
          let stored := StorageLocalImageURL env i localImageURL
          let before := [Call.pull i.Image, .tag i.Image localImageURL, .push localImageURL]
          match stored.err with
          | some err => ⟨.returned (some err), stored.item, before ++ stored.calls⟩
          | none =>
            let versioned := StorageVersionInfo env stored.item localImageURL
            let i2 := versioned.item
            let body := CreateUpgradeTaskBody i2
            let _upgradeErr := env.UpgradeService i2.TenantName i2.ServiceAlias body
            ⟨.returned none, i2,
              before ++ stored.calls ++ versioned.calls
                ++ [.upgrade i2.TenantName i2.ServiceAlias body]⟩

/-! ### Sample inputs -/

/-- A configuration with the two registry settings and nothing else. -/
def sampleConfig (curr all : ConfigValue) (path : String) : ConfigValue :=
  if path = "publish > image > curr_registry" then curr
  else if path = "publish > image > all_registry" then all
  else .null

/-- A build item for the image `nginx:1.19` of service `gr1234`. -/
def sampleItem (config : String → ConfigValue) : ImageBuildItem :=
  { Namespace := "goodrain", TenantName := "team", ServiceAlias := "gr1234",
    Image := "nginx:1.19", DestImage := "", EventID := "event-1", Config := config,
    TenantID := "", ServiceID := "", DeployVersion := "20171101" }

/-- A world in which docker and the service table work, the version table has no row and
the API refuses the upgrade. -/
def sampleEnv : BuildEnv :=
  { ImagePull := fun _ => none
    ImageTag := fun _ _ => none
    ImagePush := fun _ => none
    ImageNameHandle := fun _ => { Name := "nginx", Tag := "1.19" }
    GetTenantIDByName := fun _ => .ok { UUID := "tenant-uuid" }
    GetServiceByTenantIDAndServiceAlias := fun _ _ =>
      .ok { ServiceID := "service-id", ImageName := "nginx:1.19" }
    UpdateService := fun _ => none
    GetVersionByEventID := fun _ => .error (.plain "record not found")
    UpdateVersion := fun _ => none
    UpgradeService := fun _ _ _ => some (.plain "connection refused") }

/-- The sample world with a service table that rejects the update. -/
def readOnlyEnv : BuildEnv :=
  { sampleEnv with UpdateService := fun _ => some (.plain "read only") }

/-- The sample item with both registry settings present. -/
def configuredItem : ImageBuildItem :=
  sampleItem (sampleConfig (.str "goodrain.me") (.str "hub.goodrain.com"))

end exector

/-! ## The helm application phases (`worker/controllers/helmapp`)

The reconciler that `controlloop_test.go` exercises is not among the source files at hand;
what follows is its description in the specification, sections 3 and 4. Deletion and the
work queue are left out: they do not touch the phase, the readme or the values. -/

namespace helmapp

/-- Modelled from the spec: the reconciler's phase enumeration is missing; section 4.4
lists the states unset, Detecting, Configuring, Installing, Installed. -/
inductive Phase where
  | unset
  | Detecting
  | Configuring
  | Installing
  | Installed
  deriving DecidableEq, Repr

/-- Modelled from the spec: the condition status type is missing; section 3 gives
True, False, Unknown. -/
inductive ConditionStatus where
  | True
  | False
  | Unknown
  deriving DecidableEq, Repr

/-- Modelled from the spec: the condition type enumeration is missing; section 3 gives
ChartReady, ChartParsed, PreInstalled and installer-stage conditions. -/
inductive ConditionType where
  | ChartReady
  | ChartParsed
  | PreInstalled
  | Installed
  deriving DecidableEq, Repr

/-- Modelled from the spec: the condition record is missing; section 3 gives type, status,
reason, message and last-transition timestamp. -/
structure Condition where
  type : ConditionType
  status : ConditionStatus
  reason : String
  message : String
  lastTransitionTime : Nat
  deriving DecidableEq, Repr

/-- Modelled from the spec: the resource spec is missing; section 3 gives the store
reference, package name, package version, override values and `preStatus`. -/
structure HelmAppSpec where
  storeName : String
  storeURL : String
  templateName : String
  version : String
  overrides : List (String × String)
  preStatus : String
  deriving DecidableEq, Repr

/-- Modelled from the spec: the resource status is missing; section 3 gives phase, readme,
values, conditions and diagnostic fields (last error, install result summary, here with the
version and overrides the release was installed from). -/
structure HelmAppStatus where
  phase : Phase
  readme : String
  values : String
  conditions : List Condition
  lastError : String
  manifest : String
  installedVersion : String
  installedOverrides : List (String × String)
  deriving DecidableEq, Repr

/-- Modelled from the spec: the application resource is missing; section 3 gives identity
(namespace and name), spec and status. -/
structure HelmApp where
  namespace_ : String
  name : String
  spec : HelmAppSpec
  status : HelmAppStatus
  deriving DecidableEq, Repr

/-- Modelled from the spec: the sentinel constant is missing; section 8 writes it
`"configured"`. -/
def preStatusConfigured : String := "configured"

/-- Modelled from the spec: resource creation is missing; section 3 says the resource is
created with empty status. -/
def create (ns name : String) (spec : HelmAppSpec) : HelmApp :=
  { namespace_ := ns, name := name, spec := spec,
    status := { phase := .unset, readme := "", values := "", conditions := [], lastError := "",
                manifest := "", installedVersion := "", installedOverrides := [] } }

/-- Modelled from the spec: `GetCondition` of the condition store (section 4.1) is missing;
it returns the index and the condition of a type, or nothing. -/
def GetCondition (st : HelmAppStatus) (t : ConditionType) : Option (Nat × Condition) :=
  match st.conditions.findIdx? (fun c => c.type = t), st.conditions.find? (fun c => c.type = t) with
  | some idx, some c => some (idx, c)
  | _, _ => none

/-- Modelled from the spec: the upsert inside `SetCondition` (section 4.1) is missing; it
replaces the condition of the same type and bumps the transition time only when the status
changes. -/
def upsert (now : Nat) (t : ConditionType) (s : ConditionStatus) (reason message : String) :
    List Condition → List Condition
  | [] => [⟨t, s, reason, message, now⟩]
  | c :: cs =>
    if c.type = t then
      ⟨t, s, reason, message, if c.status = s then c.lastTransitionTime else now⟩ :: cs
    else c :: upsert now t s reason message cs

/-- Modelled from the spec: `SetCondition` of the condition store (section 4.1) is missing. -/
def SetCondition (now : Nat) (st : HelmAppStatus) (t : ConditionType) (s : ConditionStatus)
    (reason message : String) : HelmAppStatus :=
  { st with conditions := upsert now t s reason message st.conditions }

/-- Modelled from the spec: `IsTrue` of the condition store (section 4.1) is missing; an
absent, False or Unknown condition is not true. -/
def IsTrue (st : HelmAppStatus) (t : ConditionType) : Bool :=
  match GetCondition st t with
  | some (_, c) => decide (c.status = .True)
  | none => false

/-- Modelled from the spec: the repository client's failure taxonomy (sections 4.2, 7). -/
inductive RepoError where
  | RepoUnreachable
  | IndexMalformed
  | NoEntries
  | PackageNotFound
  | VersionNotFound
  | ContentUnavailable
  deriving DecidableEq, Repr

/-- Modelled from the spec: the installer's failure taxonomy (sections 4.3, 7). -/
inductive InstallError where
  | RenderError
  | ApplyTransient
  | ApplyFatal
  deriving DecidableEq, Repr

/-- Modelled from the spec: the short machine token of a repository failure. -/
def RepoError.reason : RepoError → String
  | .RepoUnreachable => "RepoUnreachable"
  | .IndexMalformed => "IndexMalformed"
  | .NoEntries => "NoEntries"
  | .PackageNotFound => "PackageNotFound"
  | .VersionNotFound => "VersionNotFound"
  | .ContentUnavailable => "ContentUnavailable"

/-- Modelled from the spec: the short machine token of an installer failure. -/
def InstallError.reason : InstallError → String
  | .RenderError => "RenderError"
  | .ApplyTransient => "ApplyTransient"
  | .ApplyFatal => "ApplyFatal"

/-- Modelled from the spec: a version entry of the package index (section 3). -/
structure VersionEntry where
  version : String
  description : String
  icon : String
  keywords : List String
  deriving DecidableEq, Repr

/-- Modelled from the spec: the package index (section 3), package name to version entries. -/
abbrev Index := List (String × List VersionEntry)

/-- Modelled from the spec: what `FetchContent` returns (section 4.2), the documentation
and the default configuration read from the package archive. -/
structure PackageContent where
  readme : String
  values : String
  deriving DecidableEq, Repr

/-- Modelled from the spec: `ResolveVersion` of the repository client (section 4.2) is
missing; it fails with `PackageNotFound` or `VersionNotFound`. -/
def ResolveVersion (index : Index) (packageName version : String) :
    Except RepoError VersionEntry :=
  match index.lookup packageName with
  | none => .error .PackageNotFound
  | some entries =>
    match entries.find? (fun e => e.version = version) with
    | none => .error .VersionNotFound
    | some e => .ok e

/-- Modelled from the spec: the collaborators of the phase handlers (sections 4.2, 4.3 and
the pre-install validation of section 4.4), each with every outcome the spec gives it. -/
structure Collaborators where
  /-- The operation `FetchIndex(storeURL)`. -/
  FetchIndex : String → Except RepoError Index
  /-- The archive of a package version, retrieved and unpacked: the documentation and the
  default configuration found in it, each empty when the archive has none to read; nothing
  when the archive cannot be retrieved. -/
  Archive : String → String → Option PackageContent
  /-- The pre-install validation of the resource. -/
  Validate : HelmApp → Bool
  /-- The operation `Install(identity, packageName, version, overrides)`. -/
  Install : String × String → String → String → List (String × String) →
    Except InstallError String

/-- Modelled from the spec: `FetchContent` of the repository client (section 4.2) is
missing; it retrieves and unpacks the archive sufficiently to read its documentation and
default configuration and fails with `ContentUnavailable` otherwise: when the archive
cannot be retrieved, or has no documentation or no default configuration to read. -/
def FetchContent (env : Collaborators) (packageName version : String) :
    Except RepoError PackageContent :=
  match env.Archive packageName version with
  | none => .error .ContentUnavailable
  | some content =>
    if content.readme = "" ∨ content.values = "" then .error .ContentUnavailable
    else .ok content

/-- Modelled from the spec: the requeue directive a phase handler returns (section 4.4). -/
inductive Requeue where
  | no
  | backoff
  deriving DecidableEq, Repr

/-- Modelled from the spec: the New handler (section 4.4) is missing; it initialises all
conditions to Unknown and sets phase Detecting, with no external call. -/
def handleNew (now : Nat) (app : HelmApp) : HelmApp × Requeue :=
  let st0 := app.status
  let st1 := SetCondition now st0 .ChartReady .Unknown "" ""
  let st2 := SetCondition now st1 .ChartParsed .Unknown "" ""
  let st3 := SetCondition now st2 .PreInstalled .Unknown "" ""
  ({ app with status := { st3 with phase := .Detecting } }, .no)

/-- Modelled from the spec: the Detecting handler (section 4.4) is missing; index and
version, then content, then validation, each failure recorded and requeued. -/
def handleDetecting (env : Collaborators) (now : Nat) (app : HelmApp) : HelmApp × Requeue :=
  let resolved :=
    match env.FetchIndex app.spec.storeURL with
    | .error e => Except.error e
    | .ok index => ResolveVersion index app.spec.templateName app.spec.version
  match resolved with
  | .error e =>
    ({ app with status := { SetCondition now app.status .ChartReady .False e.reason "" with
                            lastError := e.reason } }, .backoff)
  | .ok _ =>
    let st1 := SetCondition now app.status .ChartReady .True "" ""
    match FetchContent env app.spec.templateName app.spec.version with
    | .error e =>
      ({ app with status := { SetCondition now st1 .ChartParsed .False e.reason "" with
                              lastError := e.reason } }, .backoff)
    | .ok content =>
      let st2 := { SetCondition now st1 .ChartParsed .True "" "" with
                   readme := content.readme, values := content.values }
      let app2 := { app with status := st2 }
      if env.Validate app2 then
        ({ app with status := { SetCondition now st2 .PreInstalled .True "" "" with
                                phase := .Configuring } }, .no)
      else
        ({ app with status := SetCondition now st2 .PreInstalled .False "ValidationFailed" "" },
          .backoff)

/-- Modelled from the spec: the Configuring handler (section 4.4) is missing; it only checks
`Spec.preStatus` and moves to Installing on the sentinel. -/
def handleConfiguring (app : HelmApp) : HelmApp × Requeue :=
  if app.spec.preStatus = preStatusConfigured then
    ({ app with status := { app.status with phase := .Installing } }, .no)
  else (app, .no)

/-- Modelled from the spec: the Installing handler (section 4.4) is missing; success moves to
Installed, a transient failure requeues, the other failures are surfaced as a condition,
and every failure stays in Installing. -/
def handleInstalling (env : Collaborators) (now : Nat) (app : HelmApp) : HelmApp × Requeue :=
  match env.Install (app.namespace_, app.name) app.spec.templateName app.spec.version
      app.spec.overrides with
  | .ok manifest =>
    ({ app with status := { SetCondition now app.status .Installed .True "" "" with
                            phase := .Installed, manifest := manifest,
                            installedVersion := app.spec.version,
                            installedOverrides := app.spec.overrides } }, .no)
  | .error .ApplyTransient =>
    ({ app with status := { SetCondition now app.status .Installed .False
                              InstallError.ApplyTransient.reason "" with
                            lastError := InstallError.ApplyTransient.reason } }, .backoff)
  | .error e =>
    ({ app with status := { SetCondition now app.status .Installed .False e.reason "" with
                            lastError := e.reason } }, .no)

/-- Modelled from the spec: the Installed handler (section 4.4) is missing; a version change
re-enters Detecting, an overrides change re-enters Configuring keeping readme and values. -/
def handleInstalled (app : HelmApp) : HelmApp × Requeue :=
  if app.spec.version ≠ app.status.installedVersion then
    ({ app with status := { app.status with phase := .Detecting } }, .no)
  else if app.spec.overrides ≠ app.status.installedOverrides then
    ({ app with status := { app.status with phase := .Configuring } }, .no)
  else (app, .no)

/-- Modelled from the spec: the reconciler's dispatch (section 2) is missing; one
reconciliation runs the handler that matches `status.phase`. -/
def reconcile (env : Collaborators) (now : Nat) (app : HelmApp) : HelmApp × Requeue :=
  match app.status.phase with
  | .unset => handleNew now app
  | .Detecting => handleDetecting env now app
  | .Configuring => handleConfiguring app
  | .Installing => handleInstalling env now app
  | .Installed => handleInstalled app

/-- Modelled from the spec: the write path of section 6 is missing; the tenant replaces
`preStatus`, `overrides` and `version` and nothing of the status. -/
def updateSpec (app : HelmApp) (preStatus : String) (overrides : List (String × String))
    (version : String) : HelmApp :=
  { app with spec := { app.spec with preStatus := preStatus, overrides := overrides,
                                     version := version } }

/-- Modelled from the spec: the resources that exist are the created ones, changed only by
reconciliations, whatever the collaborators answer, and by tenant writes to the spec. -/
inductive Reachable : HelmApp → Prop where
  | created (ns name : String) (spec : HelmAppSpec) : Reachable (create ns name spec)
  | reconciled (env : Collaborators) (now : Nat) (app : HelmApp) :
      Reachable app → Reachable (reconcile env now app).1
  | updated (app : HelmApp) (preStatus : String) (overrides : List (String × String))
      (version : String) :
      Reachable app → Reachable (updateSpec app preStatus overrides version)

/-- The readme and the values of the status are both non-empty. -/
def ContentPresent (app : HelmApp) : Prop :=
  app.status.readme ≠ "" ∧ app.status.values ≠ ""

/-- The package content has been extracted whenever the phase is past Detecting. -/
def ContentInvariant (app : HelmApp) : Prop :=
  app.status.phase = .Configuring ∨ app.status.phase = .Installing ∨
    app.status.phase = .Installed → ContentPresent app

/-! ### Sample inputs -/

/-- The spec of the `phpmyadmin` application of the control loop test. -/
def sampleSpec : HelmAppSpec :=
  { storeName := "bitnami", storeURL := "https://charts.bitnami.com/bitnami",
    templateName := "phpmyadmin", version := "8.2.0", overrides := [], preStatus := "" }

/-- An index that has `phpmyadmin` at version `8.2.0`. -/
def sampleRepoIndex : Index :=
  [("phpmyadmin", [{ version := "8.2.0", description := "web interface for MySQL",
                     icon := "phpmyadmin.svg", keywords := ["mysql"] }])]

/-- Collaborators that all succeed and serve a package with a readme and values. -/
def workingEnv : Collaborators :=
  { FetchIndex := fun _ => .ok sampleRepoIndex
    Archive := fun _ _ => some { readme := "# phpMyAdmin", values := "replicas: 1" }
    Validate := fun _ => true
    Install := fun _ _ _ _ => .ok "kind: Deployment" }

/-- Collaborators that all succeed and serve an archive without readme and values. -/
def bareEnv : Collaborators :=
  { workingEnv with Archive := fun _ _ => some { readme := "", values := "" } }

/-- The sample application after creation and two reconciliations with `workingEnv`. -/
def configuringApp : HelmApp :=
  (reconcile workingEnv 2 (reconcile workingEnv 1 (create "ns" "phpmyadmin" sampleSpec)).1).1

/-- The sample application after creation and two reconciliations with `bareEnv`. -/
def bareApp : HelmApp :=
  (reconcile bareEnv 2 (reconcile bareEnv 1 (create "ns" "phpmyadmin" sampleSpec)).1).1

end helmapp

end Rainbond

/-! # Properties -/

namespace Rainbond

/-- Two strings that differ at one position are different. -/
theorem string_ne_of_get (a b : String) (n : Nat)
    (h : a.data.get? n ≠ b.data.get? n) : a ≠ b := by
  intro e
  exact h (by rw [e])

namespace handler

/-- A Go map has length zero exactly when it has no entry. -/
theorem mapLen_eq_zero_iff {V : Type} (m : List (String × V)) : mapLen m = 0 ↔ m = [] := by
  unfold mapLen
  rw [List.length_eq_zero]
  constructor
  · intro h
    cases m with
    | nil => rfl
    | cons kv rest =>
      have hmem : kv.1 ∈ ((kv :: rest).map Prod.fst).dedup :=
        List.mem_dedup.mpr (by simp)
      rw [h] at hmem
      exact absurd hmem (List.not_mem_nil _)
  · intro h
    subst h
    rfl

/-- A key that is present makes the map non-empty. -/
theorem mapLen_pos_of_mapGet {V : Type} (m : List (String × V)) (k : String) (v : V)
    (h : mapGet m k = some v) : mapLen m ≠ 0 := by
  intro h0
  rw [mapLen_eq_zero_iff] at h0
  subst h0
  simp [mapGet] at h

/-- A key that is not in the map is not found. -/
theorem mapGet_eq_none_iff {V : Type} (m : List (String × V)) (k : String) :
    mapGet m k = none ↔ k ∉ m.map Prod.fst := by
  unfold mapGet
  induction m with
  | nil => simp
  | cons kv rest ih =>
    obtain ⟨k1, v1⟩ := kv
    by_cases hk : k = k1
    · subst hk
      simp [List.lookup]
    · have hb : (k == k1) = false := by simpa using hk
      simp [List.lookup, hb, ih, hk]

/-- The loop over versions that all have metadata appends one item per version, in order. -/
theorem appendVersions_of_metadata (metas : List Metadata) (versions : ChartVersions)
    (acc : List HelmChartInformation) (h : versions.map metadataOf = metas.map some) :
    appendVersions acc versions = some (acc ++ metas.map toHelmChartInformation) := by
  induction versions generalizing metas acc with
  | nil =>
    cases metas with
    | nil => simp [appendVersions]
    | cons m ms => simp at h
  | cons v rest ih =>
    cases metas with
    | nil => simp at h
    | cons m ms =>
      simp only [List.map_cons, List.cons.injEq] at h
      unfold appendVersions
      rw [h.1]
      simp only
      rw [ih ms _ h.2]
      simp

/-- C1: when the index document is fetched and decoded and has zero entries,
`GetChartInformation` returns a nil result and the error of code 400 whose text is
`entries not found`, whatever chart name is asked for. -/
theorem GetChartInformation_zero_entries (env : HTTPEnv) (chart : ChartInformation)
    (req : Request) (resp : Response) (body jbody : String) (indexFile : IndexFile)
    (hreq : env.NewRequest "GET" (chart.RepoURL ++ "/index.yaml") = .ok req)
    (hdo : env.Do req = .ok resp)
    (hread : env.ReadAll resp = .ok body)
    (hyaml : env.YAMLToJSON body = .ok jbody)
    (hjson : env.Unmarshal jbody = .ok indexFile)
    (hzero : mapLen indexFile.Entries = 0) :
    ∃ apiErr, GetChartInformation env chart = some (none, some apiErr) ∧ apiErr.Code = 400 ∧
      apiErr.Err.Error = "entries not found" := by
  have h : GetChartInformation env chart
      = some (none, some ⟨400, .plain "entries not found"⟩) := by
    unfold GetChartInformation
    simp only [hreq, hdo, hread, hyaml, hjson, hzero, if_true]
  rw [h]
  exact ⟨_, rfl, rfl, rfl⟩

/-- C1 at the empty index, asked for the sample chart. -/
theorem GetChartInformation_zero_entries_witness :
    ∃ apiErr, GetChartInformation (servingEnv emptyIndex) sampleQuery = some (none, some apiErr) ∧
      apiErr.Code = 400 ∧ apiErr.Err.Error = "entries not found" :=
  GetChartInformation_zero_entries (servingEnv emptyIndex) sampleQuery
    { Method := "GET", URL := sampleQuery.RepoURL ++ "/index.yaml" }
    { Body := "entries" } "entries" "entries" emptyIndex
    rfl rfl rfl rfl rfl (by decide)

/-- C2 as stated fails: the chart name is a key of a decoded, non-empty index, with one
version entry that has no metadata, or with a `null` second entry, and
`GetChartInformation` panics instead of returning a list. -/
theorem GetChartInformation_versions_panic :
    mapLen bareIndex.Entries ≠ 0 ∧
    (∃ versions, mapGet bareIndex.Entries sampleQuery.ChartName = some versions ∧
      versions.length = 1) ∧
    GetChartInformation (servingEnv bareIndex) sampleQuery = none ∧
    (∃ versions, mapGet nullIndex.Entries sampleQuery.ChartName = some versions ∧
      versions.length = 2) ∧
    GetChartInformation (servingEnv nullIndex) sampleQuery = none := by
  refine ⟨by decide, ⟨_, rfl, rfl⟩, by decide, ⟨_, rfl, rfl⟩, by decide⟩

/-- C2 amended: when the index is decoded and the chart name is one of its keys, with
version entries `versions` none of which is nil or without metadata, `GetChartInformation`
returns a nil error and a list of as many items, in the same order, item `k` carrying the
version, keywords, icon and description of entry `k`. -/
theorem GetChartInformation_versions (env : HTTPEnv) (chart : ChartInformation)
    (req : Request) (resp : Response) (body jbody : String) (indexFile : IndexFile)
    (versions : ChartVersions) (metas : List Metadata)
    (hreq : env.NewRequest "GET" (chart.RepoURL ++ "/index.yaml") = .ok req)
    (hdo : env.Do req = .ok resp)
    (hread : env.ReadAll resp = .ok body)
    (hyaml : env.YAMLToJSON body = .ok jbody)
    (hjson : env.Unmarshal jbody = .ok indexFile)
    (hkey : mapGet indexFile.Entries chart.ChartName = some versions)
    (hmeta : versions.map metadataOf = metas.map some) :
    ∃ items, GetChartInformation env chart = some (some items, none) ∧
      items.length = versions.length ∧
      ∀ (k : Nat) (hk : k < versions.length) (hi : k < items.length),
        ∃ m, metadataOf (versions.get ⟨k, hk⟩) = some m ∧
          (items.get ⟨k, hi⟩).Version = m.Version ∧
          (items.get ⟨k, hi⟩).Keywords = m.Keywords ∧
          (items.get ⟨k, hi⟩).Pic = m.Icon ∧
          (items.get ⟨k, hi⟩).Abstract = m.Description := by
  have hpos := mapLen_pos_of_mapGet _ _ _ hkey
  have hloop := appendVersions_of_metadata metas versions [] hmeta
  have hlen : metas.length = versions.length := by
    have := congrArg List.length hmeta
    simpa using this.symm
  have h : GetChartInformation env chart
      = some (some (metas.map toHelmChartInformation), none) := by
    unfold GetChartInformation
    simp only [hreq, hdo, hread, hyaml, hjson, hpos, if_false, hkey, hloop, List.nil_append]
  refine ⟨metas.map toHelmChartInformation, h, by simpa using hlen, ?_⟩
  intro k hk hi
  have hkm : k < metas.length := by rw [hlen]; exact hk
  refine ⟨metas.get ⟨k, hkm⟩, ?_, ?_⟩
  · have h1 : (versions.map metadataOf)[k]? = (metas.map some)[k]? := by rw [hmeta]
    simp only [List.getElem?_map] at h1
    rw [List.getElem?_eq_getElem hk, List.getElem?_eq_getElem hkm] at h1
    simpa using h1
  · simp [toHelmChartInformation]

/-- C2 amended, at the sample index, whose chart has two versions with metadata. -/
theorem GetChartInformation_versions_witness :
    GetChartInformation (servingEnv sampleIndex) sampleQuery
      = some (some [toHelmChartInformation sampleMetadata,
                    toHelmChartInformation olderMetadata], none) ∧
    ∃ items, GetChartInformation (servingEnv sampleIndex) sampleQuery = some (some items, none) ∧
      items.length = [some sampleVersion, some olderVersion].length ∧
      ∀ (k : Nat) (hk : k < [some sampleVersion, some olderVersion].length)
        (hi : k < items.length),
        ∃ m, metadataOf ([some sampleVersion, some olderVersion].get ⟨k, hk⟩) = some m ∧
          (items.get ⟨k, hi⟩).Version = m.Version ∧
          (items.get ⟨k, hi⟩).Keywords = m.Keywords ∧
          (items.get ⟨k, hi⟩).Pic = m.Icon ∧
          (items.get ⟨k, hi⟩).Abstract = m.Description :=
  ⟨by decide,
   GetChartInformation_versions (servingEnv sampleIndex) sampleQuery
    { Method := "GET", URL := sampleQuery.RepoURL ++ "/index.yaml" }
    { Body := "entries" } "entries" "entries" sampleIndex
    [some sampleVersion, some olderVersion] [sampleMetadata, olderMetadata]
    rfl rfl rfl rfl rfl (by decide) (by decide)⟩

/-- C3 as stated fails: the sample index has an entry, `wordpress` is not one of its keys,
and `GetChartInformation` returns a nil error with an empty list. -/
theorem GetChartInformation_absent_name_succeeds :
    mapLen sampleIndex.Entries ≠ 0 ∧
    absentQuery.ChartName ∉ sampleIndex.Entries.map Prod.fst ∧
    GetChartInformation (servingEnv sampleIndex) absentQuery = some (some [], none) := by
  refine ⟨by decide, by decide, ?_⟩
  decide

/-- C3 amended: when the index is decoded, has at least one entry and the chart name is
not one of its keys, `GetChartInformation` returns a nil error and an empty list. -/
theorem GetChartInformation_absent_name (env : HTTPEnv) (chart : ChartInformation)
    (req : Request) (resp : Response) (body jbody : String) (indexFile : IndexFile)
    (hreq : env.NewRequest "GET" (chart.RepoURL ++ "/index.yaml") = .ok req)
    (hdo : env.Do req = .ok resp)
    (hread : env.ReadAll resp = .ok body)
    (hyaml : env.YAMLToJSON body = .ok jbody)
    (hjson : env.Unmarshal jbody = .ok indexFile)
    (hsome : mapLen indexFile.Entries ≠ 0)
    (hkey : chart.ChartName ∉ indexFile.Entries.map Prod.fst) :
    GetChartInformation env chart = some (some [], none) := by
  have hnone := (mapGet_eq_none_iff _ _).mpr hkey
  unfold GetChartInformation
  simp only [hreq, hdo, hread, hyaml, hjson, hsome, if_false, hnone]

/-- C3 amended, at the sample index asked for `wordpress`. -/
theorem GetChartInformation_absent_name_witness :
    GetChartInformation (servingEnv sampleIndex) absentQuery = some (some [], none) :=
  GetChartInformation_absent_name (servingEnv sampleIndex) absentQuery
    { Method := "GET", URL := absentQuery.RepoURL ++ "/index.yaml" }
    { Body := "entries" } "entries" "entries" sampleIndex
    rfl rfl rfl rfl rfl (by decide) (by decide)

/-- The text of a transport failure is never the text of a decoding failure. -/
theorem transport_ne_decode (t d : String) (c1 c2 : GoError)
    (ht : t ∈ transportMessages) (hd : d ∈ decodeMessages) :
    (GoError.wrap c1 t).Error ≠ (GoError.wrap c2 d).Error := by
  simp only [transportMessages, decodeMessages, List.mem_cons, List.mem_singleton,
    List.mem_nil_iff, or_false] at ht hd
  rcases ht with rfl | rfl | rfl <;> rcases hd with rfl | rfl <;>
    exact string_ne_of_get _ _ 20 (by simp [GoError.Error, String.data_append])

/-- The text of a wrapped step failure is never the text of the zero-entries failure. -/
theorem wrapped_ne_no_entries (m : String) (c : GoError)
    (hm : m ∈ transportMessages ∨ m ∈ decodeMessages) :
    (GoError.wrap c m).Error ≠ (GoError.plain "entries not found").Error := by
  simp only [transportMessages, decodeMessages, List.mem_cons, List.mem_singleton,
    List.mem_nil_iff, or_false] at hm
  rcases hm with (rfl | rfl | rfl) | (rfl | rfl) <;>
    exact string_ne_of_get _ _ 0 (by simp [GoError.Error, String.data_append])

/-- C4: a failure to build or send the request or to read the body makes
`GetChartInformation` return a nil result and an error wrapping the cause under a transport
message; a failure to convert or decode the body, a nil result and an error wrapping the
cause under a decoding message; the texts of a transport failure, of a decoding failure and
of the zero-entries failure are pairwise different, whatever the causes. -/
theorem GetChartInformation_failures (env : HTTPEnv) (chart : ChartInformation) :
    (∀ err, env.NewRequest "GET" (chart.RepoURL ++ "/index.yaml") = .error err →
      GetChartInformation env chart
        = some (none, some ⟨400, .wrap err "GetChartInformation NewRequest"⟩)) ∧
    (∀ req err, env.NewRequest "GET" (chart.RepoURL ++ "/index.yaml") = .ok req →
      env.Do req = .error err →
      GetChartInformation env chart
        = some (none, some ⟨400, .wrap err "GetChartInformation client.Do"⟩)) ∧
    (∀ req resp err, env.NewRequest "GET" (chart.RepoURL ++ "/index.yaml") = .ok req →
      env.Do req = .ok resp → env.ReadAll resp = .error err →
      GetChartInformation env chart
        = some (none, some ⟨400, .wrap err "GetChartInformation ioutil.ReadAll"⟩)) ∧
    (∀ req resp body err, env.NewRequest "GET" (chart.RepoURL ++ "/index.yaml") = .ok req →
      env.Do req = .ok resp → env.ReadAll resp = .ok body →
      env.YAMLToJSON body = .error err →
      GetChartInformation env chart
        = some (none, some ⟨400, .wrap err "GetChartInformation yaml.YAMLToJSON"⟩)) ∧
    (∀ req resp body jbody err,
      env.NewRequest "GET" (chart.RepoURL ++ "/index.yaml") = .ok req →
      env.Do req = .ok resp → env.ReadAll resp = .ok body →
      env.YAMLToJSON body = .ok jbody → env.Unmarshal jbody = .error err →
      GetChartInformation env chart
        = some (none, some ⟨400, .wrap err "GetChartInformation json.Unmarshal"⟩)) ∧
    (∀ (t d : String) (c1 c2 : GoError), t ∈ transportMessages → d ∈ decodeMessages →
      (GoError.wrap c1 t).Error ≠ (GoError.wrap c2 d).Error ∧
      (GoError.wrap c1 t).Error ≠ (GoError.plain "entries not found").Error ∧
      (GoError.wrap c2 d).Error ≠ (GoError.plain "entries not found").Error) := by
  refine ⟨?_, ?_, ?_, ?_, ?_, ?_⟩
  · intro err h
    unfold GetChartInformation
    simp only [h]
  · intro req err h1 h2
    unfold GetChartInformation
    simp only [h1, h2]
  · intro req resp err h1 h2 h3
    unfold GetChartInformation
    simp only [h1, h2, h3]
  · intro req resp body err h1 h2 h3 h4
    unfold GetChartInformation
    simp only [h1, h2, h3, h4]
  · intro req resp body jbody err h1 h2 h3 h4 h5
    unfold GetChartInformation
    simp only [h1, h2, h3, h4, h5]
  · intro t d c1 c2 ht hd
    exact ⟨transport_ne_decode t d c1 c2 ht hd, wrapped_ne_no_entries t c1 (Or.inl ht),
      wrapped_ne_no_entries d c2 (Or.inr hd)⟩

/-- C4 at a repository that refuses the connection and at one that serves no YAML. -/
theorem GetChartInformation_failures_witness :
    GetChartInformation unreachableEnv sampleQuery
      = some (none, some ⟨400, .wrap (.plain "dial tcp: connection refused")
          "GetChartInformation client.Do"⟩) ∧
    GetChartInformation malformedEnv sampleQuery
      = some (none, some ⟨400, .wrap (.plain "yaml: line 1")
          "GetChartInformation yaml.YAMLToJSON"⟩) ∧
    (GoError.wrap (.plain "dial tcp: connection refused") "GetChartInformation client.Do").Error
      ≠ (GoError.wrap (.plain "yaml: line 1") "GetChartInformation yaml.YAMLToJSON").Error :=
  ⟨(GetChartInformation_failures unreachableEnv sampleQuery).2.1
      { Method := "GET", URL := sampleQuery.RepoURL ++ "/index.yaml" } _ rfl rfl,
   (GetChartInformation_failures malformedEnv sampleQuery).2.2.2.1
      { Method := "GET", URL := sampleQuery.RepoURL ++ "/index.yaml" }
      { Body := "entries" } "entries" _ rfl rfl rfl rfl,
   ((GetChartInformation_failures malformedEnv sampleQuery).2.2.2.2.2
      "GetChartInformation client.Do" "GetChartInformation yaml.YAMLToJSON" _ _
      (by decide) (by decide)).1⟩

/-- Splitting never returns the empty list. -/
theorem splitChars_ne_nil (sep : Char) (cs : List Char) : splitChars sep cs ≠ [] := by
  induction cs with
  | nil => simp [splitChars]
  | cons c cs ih =>
    unfold splitChars
    split
    · simp
    · split
      · simp
      · simp

/-- Splitting returns one piece more than there are separators. -/
theorem splitChars_length (sep : Char) (cs : List Char) :
    (splitChars sep cs).length = cs.count sep + 1 := by
  induction cs with
  | nil => simp [splitChars]
  | cons c cs ih =>
    unfold splitChars
    by_cases h : c = sep
    · subst h; simp [ih]
    · have hne := splitChars_ne_nil sep cs
      simp only [h, if_false]
      cases hs : splitChars sep cs with
      | nil => exact absurd hs hne
      | cons w ws =>
        rw [hs] at ih
        simp [List.count_cons, h, ← ih]

/-- Joining the pieces with the separator gives the input back. -/
theorem splitChars_intercalate (sep : Char) (cs : List Char) :
    [sep].intercalate (splitChars sep cs) = cs := by
  induction cs with
  | nil => simp [splitChars, List.intercalate]
  | cons c cs ih =>
    unfold splitChars
    by_cases h : c = sep
    · subst h
      have hne := splitChars_ne_nil c cs
      simp only [if_true]
      cases hs : splitChars c cs with
      | nil => exact absurd hs hne
      | cons w ws =>
        rw [hs] at ih
        simp [List.intercalate, List.intersperse] at ih ⊢
        exact ih
    · have hne := splitChars_ne_nil sep cs
      simp only [h, if_false]
      cases hs : splitChars sep cs with
      | nil => exact absurd hs hne
      | cons w ws =>
        rw [hs] at ih
        cases ws with
        | nil => simp [List.intercalate, List.intersperse] at ih ⊢; exact ih
        | cons w2 ws2 => simp [List.intercalate, List.intersperse] at ih ⊢; exact ih

/-- No piece contains the separator. -/
theorem splitChars_no_sep (sep : Char) (cs : List Char) :
    ∀ w ∈ splitChars sep cs, sep ∉ w := by
  induction cs with
  | nil => simp [splitChars]
  | cons c cs ih =>
    unfold splitChars
    by_cases h : c = sep
    · subst h; simpa using ih
    · simp only [h, if_false]
      cases hs : splitChars sep cs with
      | nil => simp; exact fun a => h a.symm
      | cons w ws =>
        rw [hs] at ih
        simp at ih ⊢
        exact ⟨⟨fun a => h a.symm, ih.1⟩, ih.2⟩

/-- C10: `CommandHelm` returns a result and a nil API error; the result has `Status` true
exactly when the helm process ran without error, with `Yaml` the standard output then and
the standard error otherwise; helm is started with the command split at every space: one
argument more than there are spaces, no argument containing a space, and the arguments
joined by spaces being the command. -/
theorem CommandHelm_result (run : Cmd → Finished) (command : String) :
    (CommandHelm run command).apiErr = none ∧
    (CommandHelm run command).started = { Name := "helm", Arg := Split command ' ' } ∧
    (∃ ret, (CommandHelm run command).ret = some ret ∧
      (ret.Status = true ↔ (run (CommandHelm run command).started).err = none) ∧
      ((run (CommandHelm run command).started).err = none →
        ret.Yaml = (run (CommandHelm run command).started).stdout) ∧
      ((run (CommandHelm run command).started).err ≠ none →
        ret.Status = false ∧ ret.Yaml = (run (CommandHelm run command).started).stderr)) ∧
    (CommandHelm run command).started.Arg.length = command.data.count ' ' + 1 ∧
    (∀ arg ∈ (CommandHelm run command).started.Arg, ' ' ∉ arg.data) ∧
    [' '].intercalate ((CommandHelm run command).started.Arg.map String.data)
      = command.data := by
  have hstarted : (CommandHelm run command).started
      = { Name := "helm", Arg := Split command ' ' } := by
    unfold CommandHelm
    simp only
    split <;> rfl
  have hmap : (Split command ' ').map String.data = splitChars ' ' command.data := by
    unfold Split
    rw [List.map_map]
    exact List.map_id _
  refine ⟨?_, hstarted, ?_, ?_, ?_, ?_⟩
  · unfold CommandHelm
    simp only
    split <;> rfl
  · rw [hstarted]
    unfold CommandHelm
    simp only
    cases h : (run { Name := "helm", Arg := Split command ' ' }).err with
    | none => exact ⟨_, rfl, by simp, by simp, by simp⟩
    | some e => exact ⟨_, rfl, by simp, by simp, by simp⟩
  · rw [hstarted]
    simp [Split, splitChars_length]
  · rw [hstarted]
    intro arg harg
    simp only [Split, List.mem_map] at harg
    obtain ⟨w, hw, rfl⟩ := harg
    exact splitChars_no_sep ' ' command.data w hw
  · rw [hstarted]
    simp only [hmap]
    exact splitChars_intercalate ' ' command.data

/-- C10 at a failing and at a working helm binary, with an empty command and with
consecutive spaces. -/
theorem CommandHelm_result_witness :
    (CommandHelm failingHelm "").started.Arg = [""] ∧
    (CommandHelm workingHelm "get  values").started.Arg = ["get", "", "values"] ∧
    (CommandHelm workingHelm "get  values").started.Arg.length
      = "get  values".data.count ' ' + 1 ∧
    (CommandHelm failingHelm "").ret = some { Yaml := "unknown command", Status := false } ∧
    (CommandHelm workingHelm "get  values").ret = some { Yaml := "NAME", Status := true } :=
  ⟨by decide, by decide, (CommandHelm_result workingHelm "get  values").2.2.2.1,
    by decide, by decide⟩

end handler

end Rainbond

namespace Rainbond

namespace exector

/-- The calls of `StorageLocalImageURL` all belong to the fourth step. -/
theorem StorageLocalImageURL_step (env : BuildEnv) (i : ImageBuildItem) (url : String) :
    ∀ c ∈ (StorageLocalImageURL env i url).calls, c.step = 3 := by
  unfold StorageLocalImageURL
  split
  · simp [Call.step]
  · split
    · simp [Call.step]
    · simp only
      split <;> simp [Call.step]

/-- The calls of `StorageVersionInfo` all belong to the fifth step. -/
theorem StorageVersionInfo_step (env : BuildEnv) (i : ImageBuildItem) (url : String) :
    ∀ c ∈ (StorageVersionInfo env i url).calls, c.step = 4 := by
  unfold StorageVersionInfo
  split <;> simp [Call.step]

/-- A failing `StorageLocalImageURL` leaves the item as it was. -/
theorem StorageLocalImageURL_item_of_err (env : BuildEnv) (i : ImageBuildItem) (url : String)
    (err : GoError) (h : (StorageLocalImageURL env i url).err = some err) :
    (StorageLocalImageURL env i url).item = i := by
  cases ht : env.GetTenantIDByName i.TenantName with
  | error e => simp [StorageLocalImageURL, ht]
  | ok tenant =>
    cases hs : env.GetServiceByTenantIDAndServiceAlias tenant.UUID i.ServiceAlias with
    | error e => simp [StorageLocalImageURL, ht, hs]
    | ok service =>
      cases hu : env.UpdateService { service with ImageName := url } with
      | some e => simp [StorageLocalImageURL, ht, hs, hu]
      | none => simp [StorageLocalImageURL, ht, hs, hu] at h

/-- A succeeding `StorageLocalImageURL` stores the looked-up tenant and service. -/
theorem StorageLocalImageURL_item_of_ok (env : BuildEnv) (i : ImageBuildItem) (url : String)
    (h : (StorageLocalImageURL env i url).err = none) :
    ∃ tenant service, env.GetTenantIDByName i.TenantName = .ok tenant ∧
      env.GetServiceByTenantIDAndServiceAlias tenant.UUID i.ServiceAlias = .ok service ∧
      (StorageLocalImageURL env i url).item
        = { i with TenantID := tenant.UUID, ServiceID := service.ServiceID } := by
  cases ht : env.GetTenantIDByName i.TenantName with
  | error e => simp [StorageLocalImageURL, ht] at h
  | ok tenant =>
    cases hs : env.GetServiceByTenantIDAndServiceAlias tenant.UUID i.ServiceAlias with
    | error e => simp [StorageLocalImageURL, ht, hs] at h
    | ok service =>
      cases hu : env.UpdateService { service with ImageName := url } with
      | some e => simp [StorageLocalImageURL, ht, hs, hu] at h
      | none => exact ⟨tenant, service, rfl, hs, by simp [StorageLocalImageURL, ht, hs, hu]⟩

/-- `StorageVersionInfo` does not change the item. -/
theorem StorageVersionInfo_item (env : BuildEnv) (i : ImageBuildItem) (url : String) :
    (StorageVersionInfo env i url).item = i := by
  unfold StorageVersionInfo
  split <;> rfl

/-- The run when the pull fails. -/
theorem Run_of_pull_err (env : BuildEnv) (i : ImageBuildItem) (timeout : Int) (err : GoError)
    (hpull : env.ImagePull i.Image = some err) :
    Run env i timeout = ⟨.returned (some err), i, [.pull i.Image]⟩ := by
  unfold Run
  simp only [hpull]

/-- The run when the registry settings are not strings. -/
theorem Run_of_panic (env : BuildEnv) (i : ImageBuildItem) (timeout : Int)
    (hpull : env.ImagePull i.Image = none) (hname : ImageNameHandler env i i.Image = none) :
    Run env i timeout = ⟨.panicked, i, [.pull i.Image]⟩ := by
  unfold Run
  simp only [hpull, hname]

/-- The run when the retag fails. -/
theorem Run_of_tag_err (env : BuildEnv) (i : ImageBuildItem) (timeout : Int) (url : String)
    (err : GoError) (hpull : env.ImagePull i.Image = none)
    (hname : ImageNameHandler env i i.Image = some url)
    (htag : env.ImageTag i.Image url = some err) :
    Run env i timeout = ⟨.returned (some err), i, [.pull i.Image, .tag i.Image url]⟩ := by
  unfold Run
  simp only [hpull, hname, htag]

/-- The run when the push fails. -/
theorem Run_of_push_err (env : BuildEnv) (i : ImageBuildItem) (timeout : Int) (url : String)
    (err : GoError) (hpull : env.ImagePull i.Image = none)
    (hname : ImageNameHandler env i i.Image = some url)
    (htag : env.ImageTag i.Image url = none) (hpush : env.ImagePush url = some err) :
    Run env i timeout
      = ⟨.returned (some err), i, [.pull i.Image, .tag i.Image url, .push url]⟩ := by
  unfold Run
  simp only [hpull, hname, htag, hpush]

/-- The run when storing the image URL fails. -/
theorem Run_of_store_err (env : BuildEnv) (i : ImageBuildItem) (timeout : Int) (url : String)
    (err : GoError) (hpull : env.ImagePull i.Image = none)
    (hname : ImageNameHandler env i i.Image = some url)
    (htag : env.ImageTag i.Image url = none) (hpush : env.ImagePush url = none)
    (hstore : (StorageLocalImageURL env i url).err = some err) :
    Run env i timeout
      = ⟨.returned (some err), (StorageLocalImageURL env i url).item,
          [.pull i.Image, .tag i.Image url, .push url]
            ++ (StorageLocalImageURL env i url).calls⟩ := by
  unfold Run
  simp only [hpull, hname, htag, hpush, hstore]

/-- The run when the first four steps succeed. -/
theorem Run_of_store_ok (env : BuildEnv) (i : ImageBuildItem) (timeout : Int) (url : String)
    (hpull : env.ImagePull i.Image = none)
    (hname : ImageNameHandler env i i.Image = some url)
    (htag : env.ImageTag i.Image url = none) (hpush : env.ImagePush url = none)
    (hstore : (StorageLocalImageURL env i url).err = none) :
    Run env i timeout
      = ⟨.returned none, (StorageVersionInfo env (StorageLocalImageURL env i url).item url).item,
          [.pull i.Image, .tag i.Image url, .push url]
            ++ (StorageLocalImageURL env i url).calls
            ++ (StorageVersionInfo env (StorageLocalImageURL env i url).item url).calls
            ++ [.upgrade
                (StorageVersionInfo env (StorageLocalImageURL env i url).item url).item.TenantName
                (StorageVersionInfo env (StorageLocalImageURL env i url).item url).item.ServiceAlias
                (CreateUpgradeTaskBody
                  (StorageVersionInfo env (StorageLocalImageURL env i url).item url).item)]⟩ := by
  unfold Run
  simp only [hpull, hname, htag, hpush, hstore]

/-- The run returns an error exactly when one of the first four steps fails with it. -/
theorem Run_outcome_err_iff (env : BuildEnv) (i : ImageBuildItem) (timeout : Int)
    (err : GoError) :
    (Run env i timeout).outcome = .returned (some err) ↔
      (env.ImagePull i.Image = some err ∨
        (env.ImagePull i.Image = none ∧ ∃ url, ImageNameHandler env i i.Image = some url ∧
          (env.ImageTag i.Image url = some err ∨
            (env.ImageTag i.Image url = none ∧
              (env.ImagePush url = some err ∨
                (env.ImagePush url = none ∧
                  (StorageLocalImageURL env i url).err = some err)))))) := by
  cases hpull : env.ImagePull i.Image with
  | some e => rw [Run_of_pull_err env i timeout e hpull]; simp
  | none =>
    cases hname : ImageNameHandler env i i.Image with
    | none => rw [Run_of_panic env i timeout hpull hname]; simp
    | some url =>
      cases htag : env.ImageTag i.Image url with
      | some e => rw [Run_of_tag_err env i timeout url e hpull hname htag]; simp [htag]
      | none =>
        cases hpush : env.ImagePush url with
        | some e =>
          rw [Run_of_push_err env i timeout url e hpull hname htag hpush]; simp [htag, hpush]
        | none =>
          cases hstore : (StorageLocalImageURL env i url).err with
          | some e =>
            rw [Run_of_store_err env i timeout url e hpull hname htag hpush hstore]
            simp [htag, hpush, hstore]
          | none =>
            rw [Run_of_store_ok env i timeout url hpull hname htag hpush hstore]
            simp [htag, hpush, hstore]

/-- The run returns nil exactly when the first four steps succeed. -/
theorem Run_outcome_nil_iff (env : BuildEnv) (i : ImageBuildItem) (timeout : Int) :
    (Run env i timeout).outcome = .returned none ↔
      (env.ImagePull i.Image = none ∧ ∃ url, ImageNameHandler env i i.Image = some url ∧
        env.ImageTag i.Image url = none ∧ env.ImagePush url = none ∧
        (StorageLocalImageURL env i url).err = none) := by
  cases hpull : env.ImagePull i.Image with
  | some e => rw [Run_of_pull_err env i timeout e hpull]; simp
  | none =>
    cases hname : ImageNameHandler env i i.Image with
    | none => rw [Run_of_panic env i timeout hpull hname]; simp
    | some url =>
      cases htag : env.ImageTag i.Image url with
      | some e => rw [Run_of_tag_err env i timeout url e hpull hname htag]; simp [htag]
      | none =>
        cases hpush : env.ImagePush url with
        | some e =>
          rw [Run_of_push_err env i timeout url e hpull hname htag hpush]; simp [htag, hpush]
        | none =>
          cases hstore : (StorageLocalImageURL env i url).err with
          | some e =>
            rw [Run_of_store_err env i timeout url e hpull hname htag hpush hstore]
            simp [htag, hpush, hstore]
          | none =>
            rw [Run_of_store_ok env i timeout url hpull hname htag hpush hstore]
            simp [htag, hpush, hstore]

/-- Calls of one step are in order. -/
theorem pairwise_step_of_const (l : List Call) (k : Nat) (h : ∀ c ∈ l, c.step = k) :
    l.Pairwise (fun a b => a.step ≤ b.step) :=
  List.pairwise_of_forall_mem_list (fun a ha b hb => by rw [h a ha, h b hb])

/-- Calls in order followed by calls of later steps in order are in order. -/
theorem pairwise_step_append (l1 l2 : List Call) (k : Nat)
    (h1 : l1.Pairwise (fun a b => a.step ≤ b.step))
    (h2 : l2.Pairwise (fun a b => a.step ≤ b.step))
    (hb1 : ∀ c ∈ l1, c.step ≤ k) (hb2 : ∀ c ∈ l2, k ≤ c.step) :
    (l1 ++ l2).Pairwise (fun a b => a.step ≤ b.step) :=
  List.pairwise_append.mpr ⟨h1, h2, fun a ha b hb => le_trans (hb1 a ha) (hb2 b hb)⟩

/-- The three docker calls are in order and belong to the first three steps. -/
theorem docker_calls_ordered (image url : String) :
    [Call.pull image, .tag image url, .push url].Pairwise (fun a b => a.step ≤ b.step) ∧
    ∀ c ∈ [Call.pull image, .tag image url, .push url], c.step ≤ 2 := by
  constructor
  · simp [Call.step]
  · intro c hc
    simp only [List.mem_cons, List.mem_singleton, List.not_mem_nil, or_false] at hc
    rcases hc with rfl | rfl | rfl <;> simp [Call.step]

/-- The calls of a run come in the order of the steps. -/
theorem Run_calls_ordered (env : BuildEnv) (i : ImageBuildItem) (timeout : Int) :
    (Run env i timeout).calls.Pairwise (fun a b => a.step ≤ b.step) := by
  cases hpull : env.ImagePull i.Image with
  | some e => rw [Run_of_pull_err env i timeout e hpull]; simp
  | none =>
    cases hname : ImageNameHandler env i i.Image with
    | none => rw [Run_of_panic env i timeout hpull hname]; simp
    | some url =>
      cases htag : env.ImageTag i.Image url with
      | some e => rw [Run_of_tag_err env i timeout url e hpull hname htag]; simp [Call.step]
      | none =>
        cases hpush : env.ImagePush url with
        | some e =>
          rw [Run_of_push_err env i timeout url e hpull hname htag hpush]; simp [Call.step]
        | none =>
          have h3 := StorageLocalImageURL_step env i url
          have hd := docker_calls_ordered i.Image url
          have hstored : ([Call.pull i.Image, .tag i.Image url, .push url]
              ++ (StorageLocalImageURL env i url).calls).Pairwise
                (fun a b => a.step ≤ b.step) :=
            pairwise_step_append _ _ 2 hd.1 (pairwise_step_of_const _ 3 h3) hd.2
              (fun c hc => by rw [h3 c hc]; omega)
          cases hstore : (StorageLocalImageURL env i url).err with
          | some e =>
            rw [Run_of_store_err env i timeout url e hpull hname htag hpush hstore]
            exact hstored
          | none =>
            have h4 := StorageVersionInfo_step env (StorageLocalImageURL env i url).item url
            rw [Run_of_store_ok env i timeout url hpull hname htag hpush hstore]
            have hb3 : ∀ c ∈ [Call.pull i.Image, .tag i.Image url, .push url]
                ++ (StorageLocalImageURL env i url).calls, c.step ≤ 3 := by
              intro c hc
              rcases List.mem_append.mp hc with hc | hc
              · exact le_trans (hd.2 c hc) (by omega)
              · rw [h3 c hc]
            have hversioned := pairwise_step_append _ _ 3 hstored
              (pairwise_step_of_const _ 4 h4) hb3 (fun c hc => by rw [h4 c hc]; omega)
            refine pairwise_step_append _ _ 4 hversioned (List.pairwise_singleton _ _) ?_ ?_
            · intro c hc
              rcases List.mem_append.mp hc with hc | hc
              · exact le_trans (hb3 c hc) (by omega)
              · rw [h4 c hc]
            · intro c hc
              rw [List.mem_singleton.mp hc]
              simp [Call.step]

/-- The upgrade call of a run whose first four steps succeed. -/
theorem Run_upgrade_call (env : BuildEnv) (i : ImageBuildItem) (timeout : Int) (url : String)
    (hpull : env.ImagePull i.Image = none)
    (hname : ImageNameHandler env i i.Image = some url)
    (htag : env.ImageTag i.Image url = none) (hpush : env.ImagePush url = none)
    (hstore : (StorageLocalImageURL env i url).err = none) :
    ∃ tenant service, env.GetTenantIDByName i.TenantName = .ok tenant ∧
      env.GetServiceByTenantIDAndServiceAlias tenant.UUID i.ServiceAlias = .ok service ∧
      (Run env i timeout).item
        = { i with TenantID := tenant.UUID, ServiceID := service.ServiceID } ∧
      (Run env i timeout).calls
        = [.pull i.Image, .tag i.Image url, .push url]
            ++ (StorageLocalImageURL env i url).calls
            ++ (StorageVersionInfo env (StorageLocalImageURL env i url).item url).calls
            ++ [.upgrade i.TenantName i.ServiceAlias
                { TenantID := tenant.UUID, ServiceID := service.ServiceID,
                  NewDeployVersion := i.DeployVersion, EventID := i.EventID }] := by
  obtain ⟨tenant, service, ht, hs, hitem⟩ := StorageLocalImageURL_item_of_ok env i url hstore
  refine ⟨tenant, service, ht, hs, ?_, ?_⟩
  · rw [Run_of_store_ok env i timeout url hpull hname htag hpush hstore]
    simp only [StorageVersionInfo_item, hitem]
  · rw [Run_of_store_ok env i timeout url hpull hname htag hpush hstore]
    simp only [StorageVersionInfo_item, hitem, CreateUpgradeTaskBody]

/-- C7: `Run` makes its calls in the order pull, retag, push, store image URL, store version
info, upgrade service; a failing pull, retag, push or `StorageLocalImageURL` ends the run
with that step's error and no call of a later step; when these four succeed the run goes on
through the version info and the upgrade and returns nil whatever those two return; so the
run returns an error exactly when one of the first four steps fails. -/
theorem Run_stops_at_first_failure (env : BuildEnv) (i : ImageBuildItem) (timeout : Int) :
    (Run env i timeout).calls.Pairwise (fun a b => a.step ≤ b.step) ∧
    (∀ err, env.ImagePull i.Image = some err →
      (Run env i timeout).outcome = .returned (some err) ∧
      (Run env i timeout).calls = [.pull i.Image]) ∧
    (∀ url, env.ImagePull i.Image = none → ImageNameHandler env i i.Image = some url →
      (∀ err, env.ImageTag i.Image url = some err →
        (Run env i timeout).outcome = .returned (some err) ∧
        (Run env i timeout).calls = [.pull i.Image, .tag i.Image url]) ∧
      (env.ImageTag i.Image url = none →
        (∀ err, env.ImagePush url = some err →
          (Run env i timeout).outcome = .returned (some err) ∧
          (Run env i timeout).calls = [.pull i.Image, .tag i.Image url, .push url]) ∧
        (env.ImagePush url = none →
          (∀ err, (StorageLocalImageURL env i url).err = some err →
            (Run env i timeout).outcome = .returned (some err) ∧
            (Run env i timeout).calls
              = [.pull i.Image, .tag i.Image url, .push url]
                  ++ (StorageLocalImageURL env i url).calls) ∧
          ((StorageLocalImageURL env i url).err = none →
            (Run env i timeout).outcome = .returned none ∧
            ∃ body, (Run env i timeout).calls
              = [.pull i.Image, .tag i.Image url, .push url]
                  ++ (StorageLocalImageURL env i url).calls
                  ++ (StorageVersionInfo env (StorageLocalImageURL env i url).item url).calls
                  ++ [.upgrade i.TenantName i.ServiceAlias body])))) ∧
    (∀ err, (Run env i timeout).outcome = .returned (some err) ↔
      (env.ImagePull i.Image = some err ∨
        (env.ImagePull i.Image = none ∧ ∃ url, ImageNameHandler env i i.Image = some url ∧
          (env.ImageTag i.Image url = some err ∨
            (env.ImageTag i.Image url = none ∧
              (env.ImagePush url = some err ∨
                (env.ImagePush url = none ∧
                  (StorageLocalImageURL env i url).err = some err))))))) ∧
    ((Run env i timeout).outcome = .returned none ↔
      (env.ImagePull i.Image = none ∧ ∃ url, ImageNameHandler env i i.Image = some url ∧
        env.ImageTag i.Image url = none ∧ env.ImagePush url = none ∧
        (StorageLocalImageURL env i url).err = none)) := by
  refine ⟨Run_calls_ordered env i timeout, ?_, ?_, Run_outcome_err_iff env i timeout,
    Run_outcome_nil_iff env i timeout⟩
  · intro err hpull
    rw [Run_of_pull_err env i timeout err hpull]
    exact ⟨rfl, rfl⟩
  · intro url hpull hname
    refine ⟨?_, ?_⟩
    · intro err htag
      rw [Run_of_tag_err env i timeout url err hpull hname htag]
      exact ⟨rfl, rfl⟩
    · intro htag
      refine ⟨?_, ?_⟩
      · intro err hpush
        rw [Run_of_push_err env i timeout url err hpull hname htag hpush]
        exact ⟨rfl, rfl⟩
      · intro hpush
        refine ⟨?_, ?_⟩
        · intro err hstore
          rw [Run_of_store_err env i timeout url err hpull hname htag hpush hstore]
          exact ⟨rfl, rfl⟩
        · intro hstore
          obtain ⟨tenant, service, _, _, _, hcalls⟩ :=
            Run_upgrade_call env i timeout url hpull hname htag hpush hstore
          refine ⟨?_, _, hcalls⟩
          rw [Run_of_store_ok env i timeout url hpull hname htag hpush hstore]

/-- C7 in the sample world: docker and the service table work, the version row is missing
and the upgrade is refused, and the run returns nil after the upgrade call. -/
theorem Run_stops_at_first_failure_witness :
    sampleEnv.GetVersionByEventID configuredItem.EventID = .error (.plain "record not found") ∧
    (∀ body, sampleEnv.UpgradeService "team" "gr1234" body
      = some (.plain "connection refused")) ∧
    (Run sampleEnv configuredItem 0).outcome = .returned none ∧
    ∃ body, (Run sampleEnv configuredItem 0).calls
      = [.pull "nginx:1.19", .tag "nginx:1.19" "goodrain.me/nginx:1.19_gr1234",
          .push "goodrain.me/nginx:1.19_gr1234"]
          ++ (StorageLocalImageURL sampleEnv configuredItem
                "goodrain.me/nginx:1.19_gr1234").calls
          ++ (StorageVersionInfo sampleEnv
                (StorageLocalImageURL sampleEnv configuredItem
                  "goodrain.me/nginx:1.19_gr1234").item
                "goodrain.me/nginx:1.19_gr1234").calls
          ++ [.upgrade "team" "gr1234" body] :=
  ⟨rfl, fun _ => rfl,
    (((Run_stops_at_first_failure sampleEnv configuredItem 0).2.2.1
      "goodrain.me/nginx:1.19_gr1234" rfl (by decide)).2 rfl).2 rfl |>.2 rfl⟩

/-- An upgrade call is not among calls of the first five steps. -/
theorem upgrade_not_mem_of_step_le (l : List Call) (tn sa : String)
    (body : RollingUpgradeTaskBody) (h : ∀ c ∈ l, c.step ≤ 4) : Call.upgrade tn sa body ∉ l := by
  intro hmem
  have := h _ hmem
  simp [Call.step] at this

/-- C9: an `UpgradeService` call of `Run` is made for the item's tenant name and service
alias with a body whose `TenantID` is the UUID of the tenant found by `TenantName`, whose
`ServiceID` is that of the service found by that UUID and `ServiceAlias`, whose
`NewDeployVersion` and `EventID` are the item's; a failing `StorageLocalImageURL` leaves
the item, so its `TenantID` and `ServiceID`, unchanged, and so does a run that does not
return nil. -/
theorem Run_upgrade_body (env : BuildEnv) (i : ImageBuildItem) (timeout : Int) :
    (∀ tn sa body, Call.upgrade tn sa body ∈ (Run env i timeout).calls →
      tn = i.TenantName ∧ sa = i.ServiceAlias ∧
      ∃ tenant service, env.GetTenantIDByName i.TenantName = .ok tenant ∧
        env.GetServiceByTenantIDAndServiceAlias tenant.UUID i.ServiceAlias = .ok service ∧
        body.TenantID = tenant.UUID ∧ body.ServiceID = service.ServiceID ∧
        body.NewDeployVersion = i.DeployVersion ∧ body.EventID = i.EventID) ∧
    (∀ url err, (StorageLocalImageURL env i url).err = some err →
      (StorageLocalImageURL env i url).item = i ∧
      (StorageLocalImageURL env i url).item.TenantID = i.TenantID ∧
      (StorageLocalImageURL env i url).item.ServiceID = i.ServiceID) ∧
    ((Run env i timeout).outcome ≠ .returned none →
      (Run env i timeout).item.TenantID = i.TenantID ∧
      (Run env i timeout).item.ServiceID = i.ServiceID) := by
  refine ⟨?_, ?_, ?_⟩
  · intro tn sa body hmem
    cases hpull : env.ImagePull i.Image with
    | some e =>
      rw [Run_of_pull_err env i timeout e hpull] at hmem
      simp at hmem
    | none =>
      cases hname : ImageNameHandler env i i.Image with
      | none =>
        rw [Run_of_panic env i timeout hpull hname] at hmem
        simp at hmem
      | some url =>
        cases htag : env.ImageTag i.Image url with
        | some e =>
          rw [Run_of_tag_err env i timeout url e hpull hname htag] at hmem
          simp at hmem
        | none =>
          cases hpush : env.ImagePush url with
          | some e =>
            rw [Run_of_push_err env i timeout url e hpull hname htag hpush] at hmem
            simp at hmem
          | none =>
            have hd := docker_calls_ordered i.Image url
            have h3 := StorageLocalImageURL_step env i url
            have hb3 : ∀ c ∈ [Call.pull i.Image, .tag i.Image url, .push url]
                ++ (StorageLocalImageURL env i url).calls, c.step ≤ 4 := by
              intro c hc
              rcases List.mem_append.mp hc with hc | hc
              · exact le_trans (hd.2 c hc) (by omega)
              · rw [h3 c hc]; omega
            cases hstore : (StorageLocalImageURL env i url).err with
            | some e =>
              rw [Run_of_store_err env i timeout url e hpull hname htag hpush hstore] at hmem
              exact absurd hmem (upgrade_not_mem_of_step_le _ tn sa body hb3)
            | none =>
              obtain ⟨tenant, service, ht, hs, _, hcalls⟩ :=
                Run_upgrade_call env i timeout url hpull hname htag hpush hstore
              have h4 := StorageVersionInfo_step env (StorageLocalImageURL env i url).item url
              rw [hcalls] at hmem
              rcases List.mem_append.mp hmem with hmem | hmem
              · refine absurd hmem (upgrade_not_mem_of_step_le _ tn sa body ?_)
                intro c hc
                rcases List.mem_append.mp hc with hc | hc
                · exact hb3 c hc
                · rw [h4 c hc]
              · rw [List.mem_singleton] at hmem
                injection hmem with h1 h2 h3
                subst h1 h2 h3
                exact ⟨rfl, rfl, tenant, service, ht, hs, rfl, rfl, rfl, rfl⟩
  · intro url err herr
    have h := StorageLocalImageURL_item_of_err env i url err herr
    exact ⟨h, by rw [h], by rw [h]⟩
  · intro hne
    cases hpull : env.ImagePull i.Image with
    | some e => rw [Run_of_pull_err env i timeout e hpull]; exact ⟨rfl, rfl⟩
    | none =>
      cases hname : ImageNameHandler env i i.Image with
      | none => rw [Run_of_panic env i timeout hpull hname]; exact ⟨rfl, rfl⟩
      | some url =>
        cases htag : env.ImageTag i.Image url with
        | some e => rw [Run_of_tag_err env i timeout url e hpull hname htag]; exact ⟨rfl, rfl⟩
        | none =>
          cases hpush : env.ImagePush url with
          | some e =>
            rw [Run_of_push_err env i timeout url e hpull hname htag hpush]; exact ⟨rfl, rfl⟩
          | none =>
            cases hstore : (StorageLocalImageURL env i url).err with
            | some e =>
              rw [Run_of_store_err env i timeout url e hpull hname htag hpush hstore]
              rw [StorageLocalImageURL_item_of_err env i url e hstore]
              exact ⟨rfl, rfl⟩
            | none =>
              exact absurd ((Run_outcome_nil_iff env i timeout).mpr
                ⟨hpull, url, hname, htag, hpush, hstore⟩) hne

/-- C9 in the sample world, where the upgrade call is reached, and in a world whose service
table rejects the update. -/
theorem Run_upgrade_body_witness :
    (∃ tenant service, sampleEnv.GetTenantIDByName configuredItem.TenantName = .ok tenant ∧
      sampleEnv.GetServiceByTenantIDAndServiceAlias tenant.UUID configuredItem.ServiceAlias
        = .ok service ∧
      "tenant-uuid" = tenant.UUID ∧ "service-id" = service.ServiceID) ∧
    (StorageLocalImageURL readOnlyEnv configuredItem "goodrain.me/nginx:1.19_gr1234").item.TenantID
      = configuredItem.TenantID :=
  ⟨(((Run_upgrade_body sampleEnv configuredItem 0).1 "team" "gr1234"
      { TenantID := "tenant-uuid", ServiceID := "service-id", NewDeployVersion := "20171101",
        EventID := "event-1" } (by decide)).2.2).imp
      (fun _ h => h.imp (fun _ h2 => ⟨h2.1, h2.2.1, h2.2.2.1, h2.2.2.2.1⟩)),
   ((Run_upgrade_body readOnlyEnv configuredItem 0).2.1 "goodrain.me/nginx:1.19_gr1234"
      (.plain "read only") rfl).2.1⟩

/-- The URL written by the calls of `StorageLocalImageURL` is the one it is given. -/
theorem StorageLocalImageURL_written (env : BuildEnv) (i : ImageBuildItem) (url : String) :
    ∀ c ∈ (StorageLocalImageURL env i url).calls, ∀ u, c.written = some u → u = url := by
  intro c hc u hu
  cases ht : env.GetTenantIDByName i.TenantName with
  | error e =>
    simp only [StorageLocalImageURL, ht, List.mem_singleton] at hc
    subst hc
    simp [Call.written] at hu
  | ok tenant =>
    cases hs : env.GetServiceByTenantIDAndServiceAlias tenant.UUID i.ServiceAlias with
    | error e =>
      simp only [StorageLocalImageURL, ht, hs, List.mem_cons, List.mem_singleton,
        List.not_mem_nil, or_false] at hc
      rcases hc with rfl | rfl <;> simp [Call.written] at hu
    | ok service =>
      have hcalls : (StorageLocalImageURL env i url).calls
          = [.getTenant i.TenantName, .getService tenant.UUID i.ServiceAlias,
              .updateService { service with ImageName := url }] := by
        cases hu : env.UpdateService { service with ImageName := url } <;>
          simp [StorageLocalImageURL, ht, hs, hu]
      rw [hcalls] at hc
      simp only [List.mem_cons, List.mem_singleton, List.not_mem_nil, or_false] at hc
      rcases hc with rfl | rfl | rfl
      · simp [Call.written] at hu
      · simp [Call.written] at hu
      · simpa [Call.written] using hu.symm

/-- The URL written by the calls of `StorageVersionInfo` is the one it is given. -/
theorem StorageVersionInfo_written (env : BuildEnv) (i : ImageBuildItem) (url : String) :
    ∀ c ∈ (StorageVersionInfo env i url).calls, ∀ u, c.written = some u → u = url := by
  intro c hc u hu
  cases hv : env.GetVersionByEventID i.EventID with
  | error e =>
    simp only [StorageVersionInfo, hv, List.mem_singleton] at hc
    subst hc
    simp [Call.written] at hu
  | ok version =>
    simp only [StorageVersionInfo, hv, List.mem_cons, List.mem_singleton,
      List.not_mem_nil, or_false] at hc
    rcases hc with rfl | rfl
    · simp [Call.written] at hu
    · simpa [Call.written] using hu.symm

/-- Every URL written by a run is the one `ImageNameHandler` returns for the item's image. -/
theorem Run_written (env : BuildEnv) (i : ImageBuildItem) (timeout : Int) (url : String)
    (hname : ImageNameHandler env i i.Image = some url) :
    ∀ c ∈ (Run env i timeout).calls, ∀ u, c.written = some u → u = url := by
  intro c hc u hu
  have hdocker : ∀ c ∈ [Call.pull i.Image, .tag i.Image url, .push url],
      ∀ u, c.written = some u → u = url := by
    intro c hc u hu
    simp only [List.mem_cons, List.mem_singleton, List.not_mem_nil, or_false] at hc
    rcases hc with rfl | rfl | rfl
    · simp [Call.written] at hu
    · simpa [Call.written] using hu.symm
    · simpa [Call.written] using hu.symm
  cases hpull : env.ImagePull i.Image with
  | some e =>
    rw [Run_of_pull_err env i timeout e hpull] at hc
    exact hdocker c (by simp at hc; simp [hc]) u hu
  | none =>
    cases htag : env.ImageTag i.Image url with
    | some e =>
      rw [Run_of_tag_err env i timeout url e hpull hname htag] at hc
      refine hdocker c ?_ u hu
      simp only [List.mem_cons, List.mem_singleton, List.not_mem_nil, or_false] at hc ⊢
      rcases hc with h | h
      · exact Or.inl h
      · exact Or.inr (Or.inl h)
    | none =>
      cases hpush : env.ImagePush url with
      | some e =>
        rw [Run_of_push_err env i timeout url e hpull hname htag hpush] at hc
        exact hdocker c hc u hu
      | none =>
        cases hstore : (StorageLocalImageURL env i url).err with
        | some e =>
          rw [Run_of_store_err env i timeout url e hpull hname htag hpush hstore] at hc
          rcases List.mem_append.mp hc with hc | hc
          · exact hdocker c hc u hu
          · exact StorageLocalImageURL_written env i url c hc u hu
        | none =>
          rw [Run_of_store_ok env i timeout url hpull hname htag hpush hstore] at hc
          rcases List.mem_append.mp hc with hc | hc
          · rcases List.mem_append.mp hc with hc | hc
            · rcases List.mem_append.mp hc with hc | hc
              · exact hdocker c hc u hu
              · exact StorageLocalImageURL_written env i url c hc u hu
            · exact StorageVersionInfo_written env _ url c hc u hu
          · rw [List.mem_singleton] at hc
            subst hc
            simp [Call.written] at hu

/-- C8 as stated fails: with the same `curr_registry`, source and service alias,
`ImageNameHandler` returns a URL when `all_registry` is a string and panics when
`all_registry` is absent or a number. -/
theorem ImageNameHandler_depends_on_all_registry :
    ImageNameHandler sampleEnv
        (sampleItem (sampleConfig (.str "goodrain.me") (.str "hub.goodrain.com"))) "nginx:1.19"
      = some "goodrain.me/nginx:1.19_gr1234" ∧
    ImageNameHandler sampleEnv
        (sampleItem (sampleConfig (.str "goodrain.me") (.num 5))) "nginx:1.19" = none ∧
    ImageNameHandler sampleEnv
        (sampleItem (sampleConfig (.str "goodrain.me") .null)) "nginx:1.19" = none := by
  refine ⟨by decide, by decide, by decide⟩

/-- C8 amended: when `curr_registry` and `all_registry` are both configured as strings,
`ImageNameHandler` returns `<curr_registry>/<Name>:<Tag>_<ServiceAlias>` with the name and
tag of `sources.ImageNameHandle`, the same for every string `all_registry`, and every URL
that `Run` retags to, pushes or writes to the database is that string for the item's
image. -/
theorem ImageNameHandler_of_string_settings (env : BuildEnv) (i : ImageBuildItem)
    (source curr all : String)
    (hcurr : i.Config "publish > image > curr_registry" = .str curr)
    (hall : i.Config "publish > image > all_registry" = .str all) :
    ImageNameHandler env i source
      = some (curr ++ "/" ++ (env.ImageNameHandle source).Name ++ ":"
          ++ (env.ImageNameHandle source).Tag ++ "_" ++ i.ServiceAlias) ∧
    (∀ (j : ImageBuildItem) (other : String), j.ServiceAlias = i.ServiceAlias →
      j.Config "publish > image > curr_registry" = .str curr →
      j.Config "publish > image > all_registry" = .str other →
      ImageNameHandler env j source = ImageNameHandler env i source) ∧
    (∀ timeout, ∀ c ∈ (Run env i timeout).calls, ∀ u, c.written = some u →
      u = curr ++ "/" ++ (env.ImageNameHandle i.Image).Name ++ ":"
          ++ (env.ImageNameHandle i.Image).Tag ++ "_" ++ i.ServiceAlias) := by
  have hname : ∀ (j : ImageBuildItem) (other src : String),
      j.Config "publish > image > curr_registry" = .str curr →
      j.Config "publish > image > all_registry" = .str other →
      ImageNameHandler env j src
        = some (curr ++ "/" ++ (env.ImageNameHandle src).Name ++ ":"
            ++ (env.ImageNameHandle src).Tag ++ "_" ++ j.ServiceAlias) := by
    intro j other src h1 h2
    simp [ImageNameHandler, h1, h2, ConfigValue.assertString]
  refine ⟨hname i all source hcurr hall, ?_, ?_⟩
  · intro j other halias h1 h2
    rw [hname j other source h1 h2, hname i all source hcurr hall, halias]
  · intro timeout
    exact Run_written env i timeout _ (hname i all i.Image hcurr hall)

/-- C8 amended, at the sample item with both registries configured. -/
theorem ImageNameHandler_of_string_settings_witness :
    ImageNameHandler sampleEnv configuredItem "nginx:1.19"
      = some ("goodrain.me" ++ "/" ++ (sampleEnv.ImageNameHandle "nginx:1.19").Name ++ ":"
          ++ (sampleEnv.ImageNameHandle "nginx:1.19").Tag ++ "_" ++ configuredItem.ServiceAlias) :=
  (ImageNameHandler_of_string_settings sampleEnv configuredItem "nginx:1.19" "goodrain.me"
    "hub.goodrain.com" (by decide) (by decide)).1

end exector

end Rainbond

namespace Rainbond

namespace helmapp

/-- The New handler leaves the resource in Detecting. -/
theorem handleNew_phase (now : Nat) (app : HelmApp) :
    (handleNew now app).1.status.phase = .Detecting := rfl

/-- The Detecting handler ends in Detecting, or in Configuring with the content that
`FetchContent` returned. -/
theorem handleDetecting_phase (env : Collaborators) (now : Nat) (app : HelmApp) :
    (handleDetecting env now app).1.status.phase = app.status.phase ∨
    ((handleDetecting env now app).1.status.phase = .Configuring ∧
      ∃ content, FetchContent env app.spec.templateName app.spec.version = .ok content ∧
        (handleDetecting env now app).1.status.readme = content.readme ∧
        (handleDetecting env now app).1.status.values = content.values) := by
  unfold handleDetecting
  simp only
  split
  · exact Or.inl rfl
  · split
    · exact Or.inl rfl
    · rename_i content hcontent
      split
      · exact Or.inr ⟨rfl, content, hcontent, rfl, rfl⟩
      · exact Or.inl rfl

/-- The Configuring handler changes nothing but the phase, which becomes Installing on
the sentinel. -/
theorem handleConfiguring_status (app : HelmApp) :
    (handleConfiguring app).1.status.readme = app.status.readme ∧
    (handleConfiguring app).1.status.values = app.status.values ∧
    (handleConfiguring app).1.spec = app.spec ∧
    (handleConfiguring app).1.status.phase
      = if app.spec.preStatus = preStatusConfigured then .Installing else app.status.phase := by
  unfold handleConfiguring
  split <;> simp [*]

/-- The Installing handler keeps readme and values and ends in Installed on success and in
the phase it started from otherwise. -/
theorem handleInstalling_status (env : Collaborators) (now : Nat) (app : HelmApp) :
    (handleInstalling env now app).1.status.readme = app.status.readme ∧
    (handleInstalling env now app).1.status.values = app.status.values ∧
    ((∃ manifest, env.Install (app.namespace_, app.name) app.spec.templateName
          app.spec.version app.spec.overrides = .ok manifest) ∧
        (handleInstalling env now app).1.status.phase = .Installed ∨
      (∃ err, env.Install (app.namespace_, app.name) app.spec.templateName
          app.spec.version app.spec.overrides = .error err) ∧
        (handleInstalling env now app).1.status.phase = app.status.phase) := by
  unfold handleInstalling
  split
  · rename_i manifest h
    exact ⟨rfl, rfl, Or.inl ⟨⟨manifest, h⟩, rfl⟩⟩
  · rename_i h
    exact ⟨rfl, rfl, Or.inr ⟨⟨_, h⟩, rfl⟩⟩
  · rename_i e _ h
    exact ⟨rfl, rfl, Or.inr ⟨⟨e, h⟩, rfl⟩⟩

/-- The Installed handler keeps readme and values and ends in Installed, Detecting or
Configuring. -/
theorem handleInstalled_status (app : HelmApp) :
    (handleInstalled app).1.status.readme = app.status.readme ∧
    (handleInstalled app).1.status.values = app.status.values ∧
    ((handleInstalled app).1.status.phase = app.status.phase ∨
      (handleInstalled app).1.status.phase = .Detecting ∨
      (handleInstalled app).1.status.phase = .Configuring) := by
  unfold handleInstalled
  split
  · exact ⟨rfl, rfl, Or.inr (Or.inl rfl)⟩
  · split
    · exact ⟨rfl, rfl, Or.inr (Or.inr rfl)⟩
    · exact ⟨rfl, rfl, Or.inl rfl⟩

/-- A successful `FetchContent` returns a non-empty readme and non-empty values. -/
theorem FetchContent_ok (env : Collaborators) (packageName version : String)
    (content : PackageContent) (h : FetchContent env packageName version = .ok content) :
    content.readme ≠ "" ∧ content.values ≠ "" := by
  unfold FetchContent at h
  cases harchive : env.Archive packageName version with
  | none => simp [harchive] at h
  | some found =>
    simp only [harchive] at h
    by_cases hempty : found.readme = "" ∨ found.values = ""
    · simp [hempty] at h
    · simp only [hempty, if_false, Except.ok.injEq] at h
      subst h
      exact not_or.mp hempty

/-- One reconciliation keeps the content invariant. -/
theorem reconcile_ContentInvariant (env : Collaborators) (now : Nat) (app : HelmApp)
    (h : ContentInvariant app) : ContentInvariant (reconcile env now app).1 := by
  unfold ContentInvariant ContentPresent at *
  cases hp : app.status.phase with
  | unset =>
    have hr : reconcile env now app = handleNew now app := by simp only [reconcile, hp]
    rw [hr, handleNew_phase]
    intro hph
    simp at hph
  | Detecting =>
    have hr : reconcile env now app = handleDetecting env now app := by
      simp only [reconcile, hp]
    rw [hr]
    rcases handleDetecting_phase env now app with hsame | ⟨_, content, hfetch, hreadme, hvalues⟩
    · rw [hsame, hp]
      intro hph
      simp at hph
    · intro _
      rw [hreadme, hvalues]
      exact FetchContent_ok env _ _ content hfetch
  | Configuring =>
    have hr : reconcile env now app = handleConfiguring app := by simp only [reconcile, hp]
    rw [hr]
    obtain ⟨hreadme, hvalues, _, _⟩ := handleConfiguring_status app
    intro _
    rw [hreadme, hvalues]
    exact h (Or.inl hp)
  | Installing =>
    have hr : reconcile env now app = handleInstalling env now app := by
      simp only [reconcile, hp]
    rw [hr]
    obtain ⟨hreadme, hvalues, _⟩ := handleInstalling_status env now app
    intro _
    rw [hreadme, hvalues]
    exact h (Or.inr (Or.inl hp))
  | Installed =>
    have hr : reconcile env now app = handleInstalled app := by simp only [reconcile, hp]
    rw [hr]
    obtain ⟨hreadme, hvalues, _⟩ := handleInstalled_status app
    intro _
    rw [hreadme, hvalues]
    exact h (Or.inr (Or.inr hp))

/-- The content invariant holds of every reachable resource. -/
theorem Reachable_ContentInvariant (app : HelmApp) (h : Reachable app) :
    ContentInvariant app := by
  induction h with
  | created ns name spec =>
    intro hph
    simp [create] at hph
  | reconciled env now app _ ih => exact reconcile_ContentInvariant env now app ih
  | updated app preStatus overrides version _ ih => exact ih

/-- C5: for every application resource reached from creation by reconciliations and tenant
writes, whenever the status phase is Configuring the readme and the values of the status are
non-empty: Configuring is entered from Detecting only in a pass whose `FetchContent`
succeeded and filled both, and from Installed with both kept. -/
theorem Configuring_has_content (app : HelmApp) (h : Reachable app)
    (hphase : app.status.phase = .Configuring) :
    app.status.readme ≠ "" ∧ app.status.values ≠ "" :=
  Reachable_ContentInvariant app h (Or.inl hphase)

/-- C5 at the sample application after two reconciliations; against an archive without
readme and values the same two reconciliations leave the resource in Detecting. -/
theorem Configuring_has_content_witness :
    bareApp.status.phase = .Detecting ∧
    configuringApp.status.phase = .Configuring ∧
    configuringApp.status.readme ≠ "" ∧ configuringApp.status.values ≠ "" :=
  ⟨by decide, by decide,
    Configuring_has_content configuringApp
      (Reachable.reconciled workingEnv 2 _
        (Reachable.reconciled workingEnv 1 _ (Reachable.created "ns" "phpmyadmin" sampleSpec)))
      (by decide)⟩

/-- C6: a reconciliation of a resource in phase Configuring leaves the phase at Configuring
while `preStatus` is not the sentinel and moves it to Installing when it is; a reconciliation
of a resource in phase Installing whose Installer call succeeds ends in Installed; neither a
reconciliation nor a tenant write takes Configuring to Installed, and a reconciliation that
enters Installed starts from Installing. -/
theorem Configuring_to_Installing (env : Collaborators) (now : Nat) (app : HelmApp)
    (hphase : app.status.phase = .Configuring) :
    (app.spec.preStatus ≠ preStatusConfigured →
      (reconcile env now app).1.status.phase = .Configuring) ∧
    (app.spec.preStatus = preStatusConfigured →
      (reconcile env now app).1.status.phase = .Installing) ∧
    (∀ (installing : HelmApp) (env2 : Collaborators) (now2 : Nat) (manifest : String),
      installing.status.phase = .Installing →
      env2.Install (installing.namespace_, installing.name) installing.spec.templateName
        installing.spec.version installing.spec.overrides = .ok manifest →
      (reconcile env2 now2 installing).1.status.phase = .Installed) ∧
    (reconcile env now app).1.status.phase ≠ .Installed ∧
    (∀ preStatus overrides version,
      (updateSpec app preStatus overrides version).status.phase = .Configuring) ∧
    (∀ (before : HelmApp) (env2 : Collaborators) (now2 : Nat),
      (reconcile env2 now2 before).1.status.phase = .Installed →
      before.status.phase ≠ .Installed → before.status.phase = .Installing) := by
  have hr : reconcile env now app = handleConfiguring app := by simp only [reconcile, hphase]
  obtain ⟨_, _, _, hnext⟩ := handleConfiguring_status app
  refine ⟨?_, ?_, ?_, ?_, ?_, ?_⟩
  · intro hne
    rw [hr, hnext, if_neg hne, hphase]
  · intro heq
    rw [hr, hnext, if_pos heq]
  · intro installing env2 now2 manifest hph hinstall
    have hr2 : reconcile env2 now2 installing = handleInstalling env2 now2 installing := by
      simp only [reconcile, hph]
    rw [hr2]
    obtain ⟨_, _, hcase⟩ := handleInstalling_status env2 now2 installing
    rcases hcase with ⟨_, hdone⟩ | ⟨⟨err, herr⟩, _⟩
    · exact hdone
    · rw [hinstall] at herr
      cases herr
  · rw [hr, hnext]
    split
    · simp
    · rw [hphase]
      simp
  · intro preStatus overrides version
    exact hphase
  · intro before env2 now2 hafter hbefore
    cases hp : before.status.phase with
    | unset =>
      have hr2 : reconcile env2 now2 before = handleNew now2 before := by
        simp only [reconcile, hp]
      rw [hr2, handleNew_phase] at hafter
      cases hafter
    | Detecting =>
      have hr2 : reconcile env2 now2 before = handleDetecting env2 now2 before := by
        simp only [reconcile, hp]
      rw [hr2] at hafter
      rcases handleDetecting_phase env2 now2 before with hsame | ⟨hconf, _⟩
      · rw [hsame, hp] at hafter
        cases hafter
      · rw [hconf] at hafter
        cases hafter
    | Configuring =>
      have hr2 : reconcile env2 now2 before = handleConfiguring before := by
        simp only [reconcile, hp]
      rw [hr2, (handleConfiguring_status before).2.2.2] at hafter
      split at hafter
      · cases hafter
      · rw [hp] at hafter
        cases hafter
    | Installing => rfl
    | Installed => exact absurd hp hbefore

/-- C6 at the sample application: it waits in Configuring, moves to Installing once the
tenant has written the sentinel, and from there to Installed. -/
theorem Configuring_to_Installing_witness :
    (reconcile workingEnv 3 configuringApp).1.status.phase = .Configuring ∧
    (reconcile workingEnv 3
      (updateSpec configuringApp preStatusConfigured [] "8.2.0")).1.status.phase
        = .Installing ∧
    (reconcile workingEnv 4 (reconcile workingEnv 3
      (updateSpec configuringApp preStatusConfigured [] "8.2.0")).1).1.status.phase
        = .Installed :=
  ⟨(Configuring_to_Installing workingEnv 3 configuringApp (by decide)).1 (by decide),
   (Configuring_to_Installing workingEnv 3
      (updateSpec configuringApp preStatusConfigured [] "8.2.0") (by decide)).2.1 (by decide),
   (Configuring_to_Installing workingEnv 3 configuringApp (by decide)).2.2.1
      (reconcile workingEnv 3 (updateSpec configuringApp preStatusConfigured [] "8.2.0")).1
      workingEnv 4 "kind: Deployment" (by decide) rfl⟩

end helmapp

end Rainbond
